import Mathlib

/-!
Verification of the Android pre-push normalizer (`prepush.py`).

The script is a linear pipeline over the filesystem of a project root:
preflight existence checks, a once-only backup stage, regeneration of
`settings.gradle` and `build.gradle` from fixed templates, a merge pass
over `gradle.properties`, installation of the Gradle wrapper (properties
file and jar, with a network download when the jar is absent), and a
final chmod of the `gradlew` launcher.

The embedding models the filesystem as association lists from path
strings (relative to the project root) to file contents, plus directory
names, permission bits, and a log of performed downloads.  The network
is a parameter: the downloaded distribution archive is given by its
byte content, its entry name list and entry contents.  `sys.exit(1)`
via `die(msg)` is modelled by the `RunResult.err` constructor carrying
the diagnostic and the filesystem state at exit.
-/

namespace Prepush

/-- Codepoints Python `str.strip()` removes: the Unicode whitespace set. -/
def isPyWS (c : Char) : Bool :=
  c.toNat ∈ [9, 10, 11, 12, 13, 28, 29, 30, 31, 32, 133, 160, 5760,
    8192, 8193, 8194, 8195, 8196, 8197, 8198, 8199, 8200, 8201, 8202,
    8232, 8233, 8239, 8287, 12288]

/-- Codepoints Python `str.splitlines()` treats as line boundaries. -/
def isBreak (c : Char) : Bool :=
  c.toNat ∈ [10, 11, 12, 13, 28, 29, 30, 133, 8232, 8233]

/-- Worker for Python `str.splitlines()` over a character list.  The
accumulator holds the current line's characters in reverse; the flag
records that the previous character was a `'\r'` whose line was already
emitted, so that an immediately following `'\n'` is part of the same
`"\r\n"` boundary.  A trailing boundary produces no empty final line. -/
def slGo : Bool → List Char → List Char → List String
  | _, [], acc => if acc = [] then [] else [String.mk acc.reverse]
  | cr, c :: rest, acc =>
    if cr && c = '\n' then slGo false rest acc
    else if c = '\r' then String.mk acc.reverse :: slGo true rest []
    else if isBreak c then String.mk acc.reverse :: slGo false rest []
    else slGo false rest (c :: acc)

/-- Python `s.splitlines()` (prepush.py line 108). -/
def pySplitlines (s : String) : List String := slGo false s.data []

/-- Strip Python whitespace from both ends of a character list. -/
def stripChars (l : List Char) : List Char :=
  (((l.dropWhile isPyWS).reverse).dropWhile isPyWS).reverse

/-- Python `s.strip()` (prepush.py line 111). -/
def pyStrip (s : String) : String := String.mk (stripChars s.data)

/-- Python `line.split("=", 1)` restricted to lines that contain `"="`:
split at the first `'='`; `none` when the line has no separator
(prepush.py lines 109-110). -/
def splitFirstEq : List Char → Option (List Char × List Char)
  | [] => none
  | c :: rest =>
    if c = '=' then some ([], rest)
    else
      match splitFirstEq rest with
      | none => none
      | some (a, b) => some (c :: a, b)

/-- Lookup in an association list (first matching key). -/
def getVal {α : Type} : List (String × α) → String → Option α
  | [], _ => none
  | p :: rest, k => if p.1 = k then some p.2 else getVal rest k

/-- Python dict assignment `d[k] = v` on an insertion-ordered
association list: an existing key keeps its position and gets the new
value, a new key is appended at the end. -/
def setAssoc {α : Type} (l : List (String × α)) (k : String) (v : α) : List (String × α) :=
  if k ∈ l.map Prod.fst then l.map (fun p => if p.1 = k then (k, v) else p)
  else l ++ [(k, v)]

/-- The stripped key/value pair a properties line contributes, if the
line contains a separator (prepush.py lines 109-111). -/
def lineKV (line : String) : Option (String × String) :=
  match splitFirstEq line.data with
  | none => none
  | some (k, v) => some (pyStrip (String.mk k), pyStrip (String.mk v))

/-- One iteration of the parse loop body (prepush.py lines 108-111). -/
def parseLine (ps : List (String × String)) (line : String) : List (String × String) :=
  match lineKV line with
  | none => ps
  | some (k, v) => setAssoc ps k v

/-- The `props` mapping built from a properties file's text
(prepush.py lines 105-111). -/
def parseProps (s : String) : List (String × String) :=
  (pySplitlines s).foldl parseLine []

/-- All stripped key/value pairs contributed by separator-containing
lines, in line order, before dict deduplication. -/
def rawPairs (s : String) : List (String × String) :=
  (pySplitlines s).filterMap lineKV

/-- Python `"\n".join(lines)`. -/
def joinLines : List String → String
  | [] => ""
  | [l] => l
  | l :: l2 :: ls => l ++ "\n" ++ joinLines (l2 :: ls)

/-- Serialization of the properties mapping
(prepush.py line 117): `key=value` lines joined by newlines, plus a
trailing newline. -/
def serializeProps (ps : List (String × String)) : String :=
  joinLines (ps.map (fun p => p.1 ++ "=" ++ p.2)) ++ "\n"

/-- The three keys forced by the script (prepush.py lines 113-115). -/
def mandatoryKeys : List String :=
  ["android.useAndroidX", "android.enableJetifier", "org.gradle.jvmargs"]

/-- The three forced assignments (prepush.py lines 113-115). -/
def enforceList (ps : List (String × String)) : List (String × String) :=
  setAssoc (setAssoc (setAssoc ps "android.useAndroidX" "true")
    "android.enableJetifier" "true") "org.gradle.jvmargs" "-Xmx2048m"

/-- The full gradle.properties rewrite: parse, force the three keys,
serialize (prepush.py lines 104-117). -/
def enforceProps (s : String) : String := serializeProps (enforceList (parseProps s))

/-- First-seen key order: the order in which distinct keys first occur. -/
def firstSeen (ks : List String) : List String :=
  ks.foldl (fun acc k => if k ∈ acc then acc else acc ++ [k]) []

/-- The value of the last occurrence of key `k` in a pair list. -/
def lastVal (l : List (String × String)) (k : String) : Option String :=
  l.foldl (fun r p => if p.1 = k then some p.2 else r) none

/-- Filesystem state: files (path to content), directories, permission
bits, and the log of URLs downloaded so far. -/
structure FS where
  files : List (String × String)
  dirs : List String
  perms : List (String × Nat)
  fetched : List String
deriving DecidableEq

/-- The network: the distribution archive's raw bytes, its entry name
list, and the content of each entry. -/
structure Net where
  zipContent : String
  namelist : List String
  entries : List (String × String)
deriving DecidableEq

/-- Outcome of a run: normal termination, or `die(msg)` = print the
diagnostic and `sys.exit(1)`, carrying the filesystem state at exit. -/
inductive RunResult where
  | ok (fs : FS)
  | err (msg : String) (fs : FS)
deriving DecidableEq

def getFile (fs : FS) (p : String) : Option String := getVal fs.files p

def fileExists (fs : FS) (p : String) : Bool := (getFile fs p).isSome

/-- Python `Path.exists()`: a file or a directory at the path. -/
def pathExists (fs : FS) (p : String) : Bool := fileExists fs p || decide (p ∈ fs.dirs)

def setFile (fs : FS) (p c : String) : FS := { fs with files := setAssoc fs.files p c }

def removeFile (fs : FS) (p : String) : FS :=
  { fs with files := fs.files.filter (fun q => decide (q.1 ≠ p)) }

/-- `shutil.rmtree(dir, ignore_errors=True)`: removes every file under
the directory; a plain file at the path itself makes rmtree fail, which
`ignore_errors` swallows, so only strict descendants go away. -/
def removeUnder (fs : FS) (pre : String) : FS :=
  { fs with files := fs.files.filter (fun q => !(pre.data.isPrefixOf q.1.data)) }

def addDir (fs : FS) (d : String) : FS :=
  if d ∈ fs.dirs then fs else { fs with dirs := fs.dirs ++ [d] }

def chmodFile (fs : FS) (p : String) (m : Nat) : FS :=
  { fs with perms := setAssoc fs.perms p m }

def logFetch (fs : FS) (u : String) : FS := { fs with fetched := fs.fetched ++ [u] }

/-- prepush.py line 21. -/
def GRADLE_VERSION : String := "8.2.1"

/-- prepush.py line 38. -/
def requiredItems : List String := ["app", "settings.gradle", "build.gradle"]

/-- prepush.py line 52. -/
def backupNames : List String := ["settings.gradle", "build.gradle", "gradle.properties"]

/-- The fixed settings.gradle template (prepush.py lines 64-86):
the f-string body, `.strip()`ed, plus a trailing newline. -/
def settingsTemplate : String :=
  "pluginManagement \x7b\n    repositories \x7b\n        google()\n        mavenCentral()\n        gradlePluginPortal()\n    \x7d\n    plugins \x7b\n        id \"com.android.application\" version \"8.1.2\" apply false\n    \x7d\n\x7d\n\ndependencyResolutionManagement \x7b\n    repositoriesMode.set(RepositoriesMode.FAIL_ON_PROJECT_REPOS)\n    repositories \x7b\n        google()\n        mavenCentral()\n    \x7d\n\x7d\n\nrootProject.name = \"Amaal\"\ninclude(\":app\")\n"

/-- The fixed root build.gradle template (prepush.py lines 93-97). -/
def buildTemplate : String :=
  "tasks.register(\"clean\", Delete) \x7b\n    delete rootProject.buildDir\n\x7d\n"

/-- The gradle-wrapper.properties template (prepush.py lines 131-137). -/
def wrapperPropsTemplate : String :=
  "distributionBase=GRADLE_USER_HOME\ndistributionPath=wrapper/dists\ndistributionUrl=https\\://services.gradle.org/distributions/gradle-"
    ++ GRADLE_VERSION
    ++ "-bin.zip\nzipStoreBase=GRADLE_USER_HOME\nzipStorePath=wrapper/dists\n"

def wrapperPropsPath : String := "gradle/wrapper/gradle-wrapper.properties"

def wrapperJarPath : String := "gradle/wrapper/gradle-wrapper.jar"

/-- prepush.py line 143. -/
def distUrl : String :=
  "https://services.gradle.org/distributions/gradle-" ++ GRADLE_VERSION ++ "-bin.zip"

/-- prepush.py line 142. -/
def zipName : String := "gradle-" ++ GRADLE_VERSION ++ ".zip"

/-- Destination name of one backup copy (prepush.py line 55). -/
def backupPath (f ts : String) : String := ".prepush_backup/" ++ f ++ "." ++ ts ++ ".bak"

/-- One iteration of the backup loop (prepush.py lines 52-55): copy the
file into the backup directory when it exists. -/
def copyIf (fs : FS) (ts f : String) : FS :=
  match getFile fs f with
  | some c => setFile fs (backupPath f ts) c
  | none => fs

/-- Step 1 (prepush.py lines 48-59): create the backup directory and
copy the three config files, unless the directory already exists. -/
def backupStep (fs : FS) (ts : String) : FS :=
  if pathExists fs ".prepush_backup" then fs
  else
    copyIf (copyIf (copyIf (addDir fs ".prepush_backup") ts "settings.gradle")
      ts "build.gradle") ts "gradle.properties"

/-- Step 4 (prepush.py lines 104-118): read gradle.properties if
present (else start from the empty mapping) and rewrite it enforced. -/
def enforcePropsStep (fs : FS) : FS :=
  setFile fs "gradle.properties" (enforceProps ((getFile fs "gradle.properties").getD ""))

/-- Python `s.endswith(suf)` as a suffix test on the character lists. -/
def pyEndsWith (s suf : String) : Bool := suf.data.isSuffixOf s.data

/-- Python `s.split("/")[0]` (prepush.py line 157): the characters
before the first slash. -/
def topDir (s : String) : String :=
  String.mk (s.data.takeWhile (fun c => decide (c ≠ '/')))

/-- The downloaded-archive state: the fetch of the distribution URL is
logged and the zip lands in the project root (prepush.py line 145). -/
def downloadZip (fs : FS) (net : Net) : FS :=
  setFile (logFetch fs distUrl) zipName net.zipContent

/-- Extraction of the chosen archive entry (prepush.py lines 152-157):
`z.extract` writes the entry under the wrapper directory, the rename
moves it to the canonical jar path, `shutil.rmtree` removes the
extracted entry's top-level directory, and the zip is deleted. -/
def extractJar (fs : FS) (net : Net) (jarSrc : String) : FS :=
  removeFile
    (removeUnder
      (setFile
        (removeFile
          (setFile fs ("gradle/wrapper/" ++ jarSrc) ((getVal net.entries jarSrc).getD ""))
          ("gradle/wrapper/" ++ jarSrc))
        wrapperJarPath ((getVal net.entries jarSrc).getD ""))
      ("gradle/wrapper/" ++ topDir jarSrc ++ "/"))
    zipName

/-- Step 5, jar half (prepush.py lines 139-162): when the wrapper jar
is absent, download the distribution zip into the project root, find
the entries ending in `gradle-wrapper.jar`, die when there is none;
otherwise extract the first one. -/
def installJar (fs : FS) (net : Net) : RunResult :=
  if pathExists fs wrapperJarPath then .ok fs
  else
    match net.namelist.filter (fun n => pyEndsWith n "gradle-wrapper.jar") with
    | [] => .err "gradle-wrapper.jar not found in Gradle distribution" (downloadZip fs net)
    | jarSrc :: _ => .ok (extractJar (downloadZip fs net) net jarSrc)

/-- Step 5, properties half (prepush.py lines 130-137): write the
wrapper properties template only when the file is absent. -/
def wrapperPropsStep (fs : FS) : FS :=
  if pathExists fs wrapperPropsPath then fs else setFile fs wrapperPropsPath wrapperPropsTemplate

/-- Steps 1-5a of the pipeline (prepush.py lines 48-137): backup,
rewrite settings.gradle and build.gradle, enforce gradle.properties,
make the wrapper directory, and write gradle-wrapper.properties when
absent. -/
def stageA (fs : FS) (ts : String) : FS :=
  wrapperPropsStep
    (addDir
      (addDir
        (enforcePropsStep
          (setFile (setFile (backupStep fs ts) "settings.gradle" settingsTemplate)
            "build.gradle" buildTemplate))
        "gradle")
      "gradle/wrapper")

/-- One whole run of prepush.py: step 0 preflight (lines 38-41), steps
1-5 (lines 48-162), step 6 gradlew check and chmod 0o755 (lines
167-170). -/
def run (fs : FS) (net : Net) (ts : String) : RunResult :=
  match requiredItems.find? (fun r => !(pathExists fs r)) with
  | some r => .err ("Missing required project item: " ++ r) fs
  | none =>
    match installJar (stageA fs ts) net with
    | .err m efs => .err m efs
    | .ok f7 =>
      if pathExists f7 "gradlew" then .ok (chmodFile f7 "gradlew" 493)
      else .err "gradlew script missing" f7

def resultFS : RunResult → FS
  | .ok fs => fs
  | .err _ fs => fs

def isOk : RunResult → Bool
  | .ok _ => true
  | .err _ _ => false

def errMsg : RunResult → Option String
  | .ok _ => none
  | .err m _ => some m

def getPerm (fs : FS) (p : String) : Option Nat := getVal fs.perms p

/-- Repeated dict assignment over a list of key/value pairs. -/
def setFold (acc L : List (String × String)) : List (String × String) :=
  L.foldl (fun a p => setAssoc a p.1 p.2) acc

/-- Invariant of parsed pairs: both components are strip-fixed, the key
contains no separator, and neither side contains a line boundary. -/
def goodPair (p : String × String) : Prop :=
  pyStrip p.1 = p.1 ∧ pyStrip p.2 = p.2 ∧ '=' ∉ p.1.data ∧
    (∀ c ∈ p.1.data, isBreak c = false) ∧ (∀ c ∈ p.2.data, isBreak c = false)

def goodList (l : List (String × String)) : Prop := ∀ p ∈ l, goodPair p

/-! ### Concrete fixtures used by the witnesses -/

/-- A well-formed project root: the three required items, a properties
file, and a checked-in launcher script. -/
def fsFull : FS :=
  ⟨[("settings.gradle", "old settings"), ("build.gradle", "old build"),
    ("gradle.properties", "foo=bar"), ("gradlew", "#!/bin/sh")], ["app"], [], []⟩

/-- An empty project root: nothing exists. -/
def fsEmpty : FS := ⟨[], [], [], []⟩

/-- A project root whose wrapper jar is already present (as an empty
file) but whose launcher script is missing. -/
def fsNoGradlew : FS :=
  ⟨[("settings.gradle", ""), ("build.gradle", ""),
    ("gradle/wrapper/gradle-wrapper.jar", "")], ["app"], [], []⟩

/-- A project root with both wrapper artifacts already present as empty
files. -/
def fsJar : FS :=
  ⟨[("settings.gradle", ""), ("build.gradle", ""),
    ("gradle/wrapper/gradle-wrapper.properties", ""),
    ("gradle/wrapper/gradle-wrapper.jar", ""), ("gradlew", "")], ["app"], [], []⟩

/-- An archive holding exactly one wrapper jar entry. -/
def netJar : Net :=
  ⟨"ZIP", ["gradle-8.2.1/lib/gradle-wrapper.jar"],
    [("gradle-8.2.1/lib/gradle-wrapper.jar", "JARBYTES")]⟩

/-- An archive holding two wrapper jar entries. -/
def netTwo : Net :=
  ⟨"ZIP", ["a/gradle-wrapper.jar", "b/gradle-wrapper.jar"],
    [("a/gradle-wrapper.jar", "JAR-A"), ("b/gradle-wrapper.jar", "JAR-B")]⟩

/-- An archive holding no wrapper jar entry. -/
def netEmpty : Net := ⟨"ZIPDATA", ["gradle-8.2.1/bin/gradle"], []⟩


/-! ### Association list lemmas -/

theorem getVal_none_iff {α : Type} (l : List (String × α)) (k : String) :
    getVal l k = none ↔ k ∉ l.map Prod.fst := by
  induction l with
  | nil => simp [getVal]
  | cons p rest ih =>
    by_cases hp : p.1 = k
    · simp [getVal, hp]
    · simp [getVal, hp, ih, Ne.symm hp]

theorem getVal_append_of_none {α : Type} {l : List (String × α)} {k : String}
    (m : List (String × α)) (h : getVal l k = none) : getVal (l ++ m) k = getVal m k := by
  induction l with
  | nil => simp
  | cons p rest ih =>
    by_cases hp : p.1 = k
    · simp [getVal, hp] at h
    · simp only [getVal, hp, if_false] at h ⊢
      simp [getVal, hp, ih h]

theorem getVal_overwrite_ne {α : Type} (l : List (String × α)) (k k' : String) (v : α)
    (hk : k' ≠ k) :
    getVal (l.map (fun p => if p.1 = k then (k, v) else p)) k' = getVal l k' := by
  induction l with
  | nil => rfl
  | cons p rest ih =>
    by_cases hp : p.1 = k
    · simp [getVal, hp, Ne.symm hk, ih]
    · simp [getVal, hp, ih]

theorem getVal_overwrite_self {α : Type} (l : List (String × α)) (k : String) (v : α)
    (hmem : k ∈ l.map Prod.fst) :
    getVal (l.map (fun p => if p.1 = k then (k, v) else p)) k = some v := by
  induction l with
  | nil => simp at hmem
  | cons p rest ih =>
    by_cases hp : p.1 = k
    · simp [getVal, hp]
    · simp only [List.map_cons, List.mem_cons] at hmem
      have hr : k ∈ rest.map Prod.fst := by
        rcases hmem with h | h
        · exact absurd h.symm hp
        · exact h
      simp [getVal, hp, ih hr]

theorem getVal_setAssoc {α : Type} (l : List (String × α)) (k k' : String) (v : α) :
    getVal (setAssoc l k v) k' = if k' = k then some v else getVal l k' := by
  unfold setAssoc
  by_cases hmem : k ∈ l.map Prod.fst
  · rw [if_pos hmem]
    by_cases hk : k' = k
    · subst hk; simp [getVal_overwrite_self l k' v hmem]
    · simp [getVal_overwrite_ne l k k' v hk, hk]
  · rw [if_neg hmem]
    by_cases hk : k' = k
    · subst hk
      rw [getVal_append_of_none _ ((getVal_none_iff l k').2 hmem)]
      simp [getVal]
    · by_cases hl : getVal l k' = none
      · rw [getVal_append_of_none _ hl, hl]
        have hk' : k ≠ k' := fun h => hk h.symm
        simp [getVal, hk', hk]
      · rcases Option.ne_none_iff_exists'.1 hl with ⟨w, hw⟩
        rw [hw, if_neg hk]
        induction l with
        | nil => simp [getVal] at hw
        | cons p rest ih =>
          by_cases hp : p.1 = k'
          · simp [getVal, hp] at hw ⊢; exact hw
          · simp only [getVal, hp, if_false] at hw
            have hmem' : k ∉ rest.map Prod.fst := fun h => hmem (by simp [h])
            have hl' : ¬ getVal rest k' = none := by simp [hw]
            simpa [getVal, hp] using ih hmem' hl' hw

theorem mapFst_overwrite {α : Type} (l : List (String × α)) (k : String) (v : α) :
    (l.map (fun p => if p.1 = k then (k, v) else p)).map Prod.fst = l.map Prod.fst := by
  induction l with
  | nil => rfl
  | cons p rest ih =>
    by_cases hp : p.1 = k
    · simp [hp, ih]
    · simp [hp, ih]

theorem mapFst_setAssoc {α : Type} (l : List (String × α)) (k : String) (v : α) :
    (setAssoc l k v).map Prod.fst =
      if k ∈ l.map Prod.fst then l.map Prod.fst else l.map Prod.fst ++ [k] := by
  unfold setAssoc
  by_cases hmem : k ∈ l.map Prod.fst
  · rw [if_pos hmem, if_pos hmem, mapFst_overwrite]
  · rw [if_neg hmem, if_neg hmem]
    simp

theorem nodup_mapFst_setAssoc {α : Type} {l : List (String × α)} (k : String) (v : α)
    (h : (l.map Prod.fst).Nodup) : ((setAssoc l k v).map Prod.fst).Nodup := by
  rw [mapFst_setAssoc]
  by_cases hmem : k ∈ l.map Prod.fst
  · simpa [hmem] using h
  · simp [hmem, List.nodup_append, h]

theorem overwrite_eq_self {α : Type} (l : List (String × α)) (k : String) (v : α)
    (h : ∀ q ∈ l, q.1 = k → q.2 = v) :
    l.map (fun p => if p.1 = k then (k, v) else p) = l := by
  induction l with
  | nil => rfl
  | cons p rest ih =>
    rw [List.map_cons, ih (fun q hq => h q (List.mem_cons_of_mem p hq))]
    by_cases hp : p.1 = k
    · have hv := h p (List.mem_cons_self p rest) hp
      have hpk : (k, v) = p := by
        cases p with
        | mk a b => simp at hp hv ⊢; exact ⟨hp.symm, hv.symm⟩
      simp [hp, hpk]
    · simp [hp]

theorem getVal_unique {α : Type} :
    ∀ (l : List (String × α)) (k : String) (v : α), (l.map Prod.fst).Nodup →
      getVal l k = some v → ∀ q ∈ l, q.1 = k → q.2 = v := by
  intro l
  induction l with
  | nil => intro k v _ _ q hq; simp at hq
  | cons p rest ih =>
    intro k v hnd h q hq hqk
    rcases List.mem_cons.1 hq with rfl | hq'
    · simp only [getVal, hqk, if_true] at h
      exact Option.some.inj h
    · by_cases hp : p.1 = k
      · exfalso
        have hk : k ∈ rest.map Prod.fst := List.mem_map.2 ⟨q, hq', hqk⟩
        rw [List.map_cons] at hnd
        exact (List.nodup_cons.1 hnd).1 (by rw [hp]; exact hk)
      · simp only [getVal, hp, if_false] at h
        exact ih k v (List.nodup_cons.1 (by simpa using hnd)).2 h q hq' hqk

theorem setAssoc_self_of_getVal {α : Type} {l : List (String × α)} {k : String} {v : α}
    (hnd : (l.map Prod.fst).Nodup) (h : getVal l k = some v) : setAssoc l k v = l := by
  have hmem : k ∈ l.map Prod.fst := by
    by_contra hc
    rw [(getVal_none_iff l k).2 hc] at h
    exact Option.noConfusion h
  unfold setAssoc
  rw [if_pos hmem]
  exact overwrite_eq_self l k v (getVal_unique l k v hnd h)

theorem setFold_cons (acc : List (String × String)) (p : String × String)
    (L : List (String × String)) :
    setFold acc (p :: L) = setFold (setAssoc acc p.1 p.2) L := rfl

theorem setFold_append (L : List (String × String)) :
    ∀ acc, ((acc ++ L).map Prod.fst).Nodup → setFold acc L = acc ++ L := by
  induction L with
  | nil => intro acc _; simp [setFold]
  | cons p rest ih =>
    intro acc h
    have hmem : p.1 ∉ acc.map Prod.fst := by
      simp only [List.map_append, List.map_cons, List.nodup_append] at h
      intro hc
      exact h.2.2 hc (by simp)
    have hset : setAssoc acc p.1 p.2 = acc ++ [p] := by
      unfold setAssoc
      rw [if_neg hmem]
    rw [setFold_cons, hset, ih (acc ++ [p]) (by simpa using h)]
    simp

theorem mapFst_setFold (L : List (String × String)) :
    ∀ acc, (setFold acc L).map Prod.fst =
      (L.map Prod.fst).foldl (fun a k => if k ∈ a then a else a ++ [k]) (acc.map Prod.fst) := by
  induction L with
  | nil => intro acc; simp [setFold]
  | cons p rest ih =>
    intro acc
    rw [setFold_cons, ih, List.map_cons, List.foldl_cons, mapFst_setAssoc]

theorem getVal_setFold (L : List (String × String)) :
    ∀ acc k, getVal (setFold acc L) k =
      L.foldl (fun r p => if p.1 = k then some p.2 else r) (getVal acc k) := by
  induction L with
  | nil => intro acc k; simp [setFold]
  | cons p rest ih =>
    intro acc k
    rw [setFold_cons, ih, List.foldl_cons, getVal_setAssoc]
    by_cases h : p.1 = k
    · simp [h]
    · have h' : ¬ k = p.1 := fun e => h e.symm
      simp [h, h']

theorem nodup_mapFst_setFold (L : List (String × String)) :
    ∀ acc, (acc.map Prod.fst).Nodup → ((setFold acc L).map Prod.fst).Nodup := by
  induction L with
  | nil => intro acc h; simpa [setFold] using h
  | cons p rest ih =>
    intro acc h
    rw [setFold_cons]
    exact ih _ (nodup_mapFst_setAssoc p.1 p.2 h)

theorem setAssoc_good {l : List (String × String)} {k v : String}
    (hl : goodList l) (hkv : goodPair (k, v)) : goodList (setAssoc l k v) := by
  intro q hq
  unfold setAssoc at hq
  by_cases hmem : k ∈ l.map Prod.fst
  · rw [if_pos hmem] at hq
    rcases List.mem_map.1 hq with ⟨p, hp, rfl⟩
    by_cases h : p.1 = k
    · simpa [h] using hkv
    · simpa [h] using hl p hp
  · rw [if_neg hmem] at hq
    rcases List.mem_append.1 hq with h | h
    · exact hl q h
    · rcases List.mem_singleton.1 h with rfl
      exact hkv

theorem setFold_good (L : List (String × String)) :
    ∀ acc, goodList acc → (∀ p ∈ L, goodPair p) → goodList (setFold acc L) := by
  induction L with
  | nil => intro acc h _; simpa [setFold] using h
  | cons p rest ih =>
    intro acc hacc hL
    rw [setFold_cons]
    refine ih _ (setAssoc_good hacc ?_) (fun q hq => hL q (List.mem_cons_of_mem p hq))
    have hp := hL p (List.mem_cons_self p rest)
    simpa using hp


/-! ### String and path helper lemmas -/

theorem pre_of_appendStr {a x s : String} (h : a ++ x = s) : a.data <+: s.data :=
  ⟨x.data, by rw [← String.data_append, h]⟩

theorem ne_of_not_pre {a x s : String} (h : ¬ a.data <+: s.data) : a ++ x ≠ s :=
  fun e => h (pre_of_appendStr e)

theorem app_app_ne {a b x y : String} (h1 : ¬ a.data <+: b.data)
    (h2 : ¬ b.data <+: a.data) : a ++ x ≠ b ++ y := by
  intro e
  have hd : a.data ++ x.data = b.data ++ y.data := by
    rw [← String.data_append, ← String.data_append, e]
  rcases List.append_eq_append_iff.1 hd with ⟨a', ha, _⟩ | ⟨c', hc, _⟩
  · exact h1 ⟨a', ha.symm⟩
  · exact h2 ⟨c', hc.symm⟩

theorem strMk_data (s : String) : String.mk s.data = s := rfl

/-! ### dropWhile and strip lemmas -/

theorem dw_head {p : Char → Bool} :
    ∀ (l : List Char) (c : Char) (t : List Char), l.dropWhile p = c :: t → p c = false := by
  intro l
  induction l with
  | nil => intro c t h; simp at h
  | cons a rest ih =>
    intro c t h
    by_cases hp : p a
    · rw [List.dropWhile_cons] at h
      simp only [hp, if_true] at h
      exact ih c t h
    · rw [List.dropWhile_cons] at h
      simp only [hp, if_false] at h
      cases h
      simpa using hp

theorem dw_idem {p : Char → Bool} (l : List Char) :
    (l.dropWhile p).dropWhile p = l.dropWhile p := by
  cases h : l.dropWhile p with
  | nil => simp
  | cons c t =>
    have hc := dw_head l c t h
    simp [List.dropWhile_cons, hc]

theorem dw_mem {p : Char → Bool} {l : List Char} {c : Char} (h : c ∈ l.dropWhile p) :
    c ∈ l :=
  (List.dropWhile_sublist p).subset h

theorem dw_surround {p : Char → Bool} (l : List Char) : ∃ u, u ++ l.dropWhile p = l := by
  induction l with
  | nil => exact ⟨[], rfl⟩
  | cons a rest ih =>
    by_cases hp : p a
    · rcases ih with ⟨u, hu⟩
      exact ⟨a :: u, by simp [List.dropWhile_cons, hp, hu]⟩
    · exact ⟨[], by simp [List.dropWhile_cons, hp]⟩

theorem strip_head {l : List Char} {c : Char} {t : List Char}
    (h : stripChars l = c :: t) : isPyWS c = false := by
  unfold stripChars at h
  rcases dw_surround (p := isPyWS) (l.dropWhile isPyWS).reverse with ⟨u, hu⟩
  have hB : (l.dropWhile isPyWS).reverse.dropWhile isPyWS = (c :: t).reverse := by
    have := congrArg List.reverse h
    simpa using this
  have hXr : (l.dropWhile isPyWS).reverse = u ++ (t.reverse ++ [c]) := by
    rw [← hu, hB]
    simp
  have hXeq : l.dropWhile isPyWS = c :: (t ++ u.reverse) := by
    have := congrArg List.reverse hXr
    simpa [List.reverse_append] using this
  exact dw_head l c _ hXeq

theorem strip_dropWhile_self (l : List Char) :
    (stripChars l).dropWhile isPyWS = stripChars l := by
  cases h : stripChars l with
  | nil => simp
  | cons c t =>
    simp [List.dropWhile_cons, strip_head h]

theorem stripChars_idem (l : List Char) : stripChars (stripChars l) = stripChars l := by
  have h1 := strip_dropWhile_self l
  calc stripChars (stripChars l)
      = (((stripChars l).dropWhile isPyWS).reverse.dropWhile isPyWS).reverse := rfl
    _ = ((stripChars l).reverse.dropWhile isPyWS).reverse := by rw [h1]
    _ = ((l.dropWhile isPyWS).reverse.dropWhile isPyWS).reverse := by
        rw [show (stripChars l).reverse = (l.dropWhile isPyWS).reverse.dropWhile isPyWS from by
          simp [stripChars]]
        rw [dw_idem]
    _ = stripChars l := rfl

theorem strip_mem {l : List Char} {c : Char} (h : c ∈ stripChars l) : c ∈ l := by
  unfold stripChars at h
  rw [List.mem_reverse] at h
  have h2 := dw_mem h
  rw [List.mem_reverse] at h2
  exact dw_mem h2

theorem pyStrip_idem (s : String) : pyStrip (pyStrip s) = pyStrip s := by
  show String.mk (stripChars (stripChars s.data)) = String.mk (stripChars s.data)
  rw [stripChars_idem]

theorem pyStrip_mem {s : String} {c : Char} (h : c ∈ (pyStrip s).data) : c ∈ s.data :=
  strip_mem h

/-! ### splitFirstEq lemmas -/

theorem spl_app (k v : List Char) (hk : '=' ∉ k) :
    splitFirstEq (k ++ '=' :: v) = some (k, v) := by
  induction k with
  | nil => simp [splitFirstEq]
  | cons c rest ih =>
    have hc : ¬ c = '=' := fun e => hk (by simp [e])
    have hr : '=' ∉ rest := fun e => hk (by simp [e])
    simp [splitFirstEq, hc, ih hr]

theorem spl_some : ∀ (l k v : List Char), splitFirstEq l = some (k, v) →
    l = k ++ '=' :: v ∧ '=' ∉ k := by
  intro l
  induction l with
  | nil => intro k v h; simp [splitFirstEq] at h
  | cons c rest ih =>
    intro k v h
    by_cases hc : c = '='
    · subst hc
      simp [splitFirstEq] at h
      rcases h with ⟨rfl, rfl⟩
      simp
    · simp only [splitFirstEq, if_neg hc] at h
      cases hsp : splitFirstEq rest with
      | none => rw [hsp] at h; simp at h
      | some ab =>
        rw [hsp] at h
        cases ab with
        | mk a b =>
          simp at h
          rcases h with ⟨rfl, rfl⟩
          rcases ih a b hsp with ⟨hl, hni⟩
          constructor
          · simp [hl]
          · intro hmem
            rcases List.mem_cons.1 hmem with h | h
            · exact hc h.symm
            · exact hni h

/-! ### splitlines lemmas -/

theorem slGo_cons_false (c : Char) (rest acc : List Char) :
    slGo false (c :: rest) acc =
      if c = '\r' then String.mk acc.reverse :: slGo true rest []
      else if isBreak c then String.mk acc.reverse :: slGo false rest []
      else slGo false rest (c :: acc) := by
  simp [slGo]

theorem slGo_consume : ∀ (l : List Char), (∀ c ∈ l, isBreak c = false) →
    ∀ (m acc : List Char), slGo false (l ++ m) acc = slGo false m (l.reverse ++ acc) := by
  intro l
  induction l with
  | nil => intro _ m acc; simp
  | cons c rest ih =>
    intro h m acc
    have hc : isBreak c = false := h c (by simp)
    have hcr : ¬ c = '\r' := by
      intro e
      rw [e] at hc
      exact absurd hc (by decide)
    have hrest : ∀ x ∈ rest, isBreak x = false := fun x hx => h x (by simp [hx])
    rw [List.cons_append, slGo_cons_false, if_neg hcr, if_neg (by simp [hc]),
      ih hrest m (c :: acc)]
    simp

theorem slGo_nl (m acc : List Char) :
    slGo false ('\n' :: m) acc = String.mk acc.reverse :: slGo false m [] := by
  rw [slGo_cons_false, if_neg (by decide), if_pos (by decide)]

theorem slGo_breakfree : ∀ (l : List Char) (cr : Bool) (acc : List Char),
    (∀ c ∈ acc, isBreak c = false) →
    ∀ s ∈ slGo cr l acc, ∀ c ∈ s.data, isBreak c = false := by
  intro l
  induction l with
  | nil =>
    intro cr acc hacc s hs c hc
    by_cases hn : acc = []
    · simp [slGo, hn] at hs
    · simp only [slGo, hn, if_false] at hs
      rcases List.mem_singleton.1 hs with rfl
      rw [show (String.mk acc.reverse).data = acc.reverse from rfl, List.mem_reverse] at hc
      exact hacc c hc
  | cons a rest ih =>
    intro cr acc hacc s hs c hc
    simp only [slGo] at hs
    split_ifs at hs with h1 h2 h3
    · exact ih false acc hacc s hs c hc
    · rcases List.mem_cons.1 hs with rfl | hs'
      · rw [show (String.mk acc.reverse).data = acc.reverse from rfl, List.mem_reverse] at hc
        exact hacc c hc
      · exact ih true [] (by simp) s hs' c hc
    · rcases List.mem_cons.1 hs with rfl | hs'
      · rw [show (String.mk acc.reverse).data = acc.reverse from rfl, List.mem_reverse] at hc
        exact hacc c hc
      · exact ih false [] (by simp) s hs' c hc
    · refine ih false (a :: acc) ?_ s hs c hc
      intro x hx
      rcases List.mem_cons.1 hx with rfl | hx'
      · exact Bool.eq_false_iff.2 h3
      · exact hacc x hx'

theorem lines_breakfree (s : String) :
    ∀ l ∈ pySplitlines s, ∀ c ∈ l.data, isBreak c = false := by
  intro l hl
  exact slGo_breakfree s.data false [] (by simp) l hl

theorem join_splitlines : ∀ (lines : List String),
    (∀ l ∈ lines, ∀ c ∈ l.data, isBreak c = false) → lines ≠ [] →
    pySplitlines (joinLines lines ++ "\n") = lines := by
  intro lines
  induction lines with
  | nil => intro _ h; exact absurd rfl h
  | cons l rest ih =>
    intro hbf _
    have hl : ∀ c ∈ l.data, isBreak c = false := hbf l (by simp)
    cases rest with
    | nil =>
      show slGo false ((joinLines [l] ++ "\n").data) [] = [l]
      have hdata : (joinLines [l] ++ "\n").data = l.data ++ ('\n' :: []) := by
        simp [joinLines, String.data_append]
      rw [hdata, slGo_consume l.data hl _ [], slGo_nl]
      simp [slGo, strMk_data]
    | cons l2 rest2 =>
      have hdata : ((joinLines (l :: l2 :: rest2)) ++ "\n").data
          = l.data ++ ('\n' :: ((joinLines (l2 :: rest2) ++ "\n").data)) := by
        rw [show joinLines (l :: l2 :: rest2) = l ++ "\n" ++ joinLines (l2 :: rest2) from rfl]
        simp [String.data_append]
      show slGo false (((joinLines (l :: l2 :: rest2)) ++ "\n").data) [] = l :: l2 :: rest2
      rw [hdata, slGo_consume l.data hl _ [], slGo_nl]
      have hrec := ih (fun x hx => hbf x (by simp [hx])) (by simp)
      rw [show pySplitlines (joinLines (l2 :: rest2) ++ "\n")
          = slGo false ((joinLines (l2 :: rest2) ++ "\n").data) [] from rfl] at hrec
      rw [hrec]
      simp [strMk_data]


/-! ### Properties parser lemmas -/

theorem foldl_parseLine_eq (lines : List String) :
    ∀ acc, lines.foldl parseLine acc = setFold acc (lines.filterMap lineKV) := by
  induction lines with
  | nil => intro acc; simp [setFold]
  | cons l rest ih =>
    intro acc
    rw [List.foldl_cons]
    cases h : lineKV l with
    | none => rw [List.filterMap_cons_none h, show parseLine acc l = acc from by
        unfold parseLine; rw [h], ih]
    | some kv =>
      rw [List.filterMap_cons_some h, show parseLine acc l = setAssoc acc kv.1 kv.2 from by
        unfold parseLine; rw [h], ih, setFold_cons]

theorem parse_eq_setFold (s : String) : parseProps s = setFold [] (rawPairs s) :=
  foldl_parseLine_eq (pySplitlines s) []

theorem lineKV_good {line : String} {kv : String × String}
    (hbf : ∀ c ∈ line.data, isBreak c = false) (h : lineKV kv.1 = some kv → True)
    (hkv : lineKV line = some kv) : goodPair kv := by
  unfold lineKV at hkv
  cases hsp : splitFirstEq line.data with
  | none => rw [hsp] at hkv; exact Option.noConfusion hkv
  | some ab =>
    rw [hsp] at hkv
    cases ab with
    | mk a b =>
      simp only at hkv
      rcases spl_some line.data a b hsp with ⟨hline, hna⟩
      have hkv' : kv = (pyStrip (String.mk a), pyStrip (String.mk b)) :=
        (Option.some.inj hkv).symm
      subst hkv'
      have hka : ∀ c ∈ a, c ∈ line.data := by
        intro c hc; rw [hline]; simp [hc]
      have hkb : ∀ c ∈ b, c ∈ line.data := by
        intro c hc; rw [hline]; simp [hc]
      refine ⟨pyStrip_idem _, pyStrip_idem _, ?_, ?_, ?_⟩
      · intro hmem
        exact hna (strip_mem hmem)
      · intro c hc
        exact hbf c (hka c (strip_mem hc))
      · intro c hc
        exact hbf c (hkb c (strip_mem hc))

theorem rawPairs_good (s : String) : ∀ p ∈ rawPairs s, goodPair p := by
  intro p hp
  unfold rawPairs at hp
  rcases List.mem_filterMap.1 hp with ⟨line, hline, hkv⟩
  exact lineKV_good (lines_breakfree s line hline) (fun _ => trivial) hkv

theorem parse_good (s : String) : goodList (parseProps s) := by
  rw [parse_eq_setFold]
  exact setFold_good (rawPairs s) [] (by intro p hp; simp at hp) (rawPairs_good s)

theorem parse_nodup (s : String) : ((parseProps s).map Prod.fst).Nodup := by
  rw [parse_eq_setFold]
  exact nodup_mapFst_setFold (rawPairs s) [] (by simp)

/-! ### Serialization round trip -/

theorem serialized_line_data (p : String × String) :
    (p.1 ++ "=" ++ p.2).data = p.1.data ++ '=' :: p.2.data := by
  rw [String.data_append, String.data_append, List.append_assoc]
  rfl

theorem lineKV_serialized {p : String × String} (hg : goodPair p) :
    lineKV (p.1 ++ "=" ++ p.2) = some p := by
  unfold lineKV
  rw [serialized_line_data, spl_app p.1.data p.2.data hg.2.2.1]
  simp only [strMk_data]
  rw [hg.1, hg.2.1]

theorem serialized_line_breakfree {p : String × String} (hg : goodPair p) :
    ∀ c ∈ (p.1 ++ "=" ++ p.2).data, isBreak c = false := by
  intro c hc
  rw [serialized_line_data] at hc
  rcases List.mem_append.1 hc with h | h
  · exact hg.2.2.2.1 c h
  · rcases List.mem_cons.1 h with rfl | h'
    · decide
    · exact hg.2.2.2.2 c h'

theorem filterMap_some_of {α : Type} (g : α → Option α) :
    ∀ (l : List α), (∀ p ∈ l, g p = some p) → l.filterMap g = l := by
  intro l
  induction l with
  | nil => intro _; rfl
  | cons p rest ih =>
    intro h
    rw [List.filterMap_cons_some (h p (by simp)), ih (fun q hq => h q (by simp [hq]))]

theorem parse_serialize {ps : List (String × String)} (hg : goodList ps)
    (hnd : (ps.map Prod.fst).Nodup) : parseProps (serializeProps ps) = ps := by
  cases ps with
  | nil => decide
  | cons p rest =>
    have hlines : pySplitlines (serializeProps (p :: rest)) =
        (p :: rest).map (fun q => q.1 ++ "=" ++ q.2) := by
      unfold serializeProps
      refine join_splitlines _ ?_ (by simp)
      intro l hl
      rcases List.mem_map.1 hl with ⟨q, hq, rfl⟩
      exact serialized_line_breakfree (hg q hq)
    unfold parseProps
    rw [hlines, foldl_parseLine_eq, List.filterMap_map]
    have hfm : (p :: rest).filterMap (lineKV ∘ fun q => q.1 ++ "=" ++ q.2) = p :: rest := by
      refine filterMap_some_of _ _ ?_
      intro q hq
      exact lineKV_serialized (hg q hq)
    rw [hfm]
    exact setFold_append (p :: rest) [] (by simpa using hnd)

/-! ### Enforcement lemmas -/

theorem mand_good_1 : goodPair ("android.useAndroidX", "true") := by
  refine ⟨by decide, by decide, by decide, ?_, ?_⟩ <;> decide

theorem mand_good_2 : goodPair ("android.enableJetifier", "true") := by
  refine ⟨by decide, by decide, by decide, ?_, ?_⟩ <;> decide

theorem mand_good_3 : goodPair ("org.gradle.jvmargs", "-Xmx2048m") := by
  refine ⟨by decide, by decide, by decide, ?_, ?_⟩ <;> decide

theorem enforce_good {ps : List (String × String)} (hg : goodList ps) :
    goodList (enforceList ps) :=
  setAssoc_good (setAssoc_good (setAssoc_good hg mand_good_1) mand_good_2) mand_good_3

theorem enforce_nodup {ps : List (String × String)} (hnd : (ps.map Prod.fst).Nodup) :
    ((enforceList ps).map Prod.fst).Nodup :=
  nodup_mapFst_setAssoc _ _ (nodup_mapFst_setAssoc _ _ (nodup_mapFst_setAssoc _ _ hnd))

theorem getVal_enforce_useAndroidX (ps : List (String × String)) :
    getVal (enforceList ps) "android.useAndroidX" = some "true" := by
  unfold enforceList
  rw [getVal_setAssoc, if_neg (by decide), getVal_setAssoc, if_neg (by decide),
    getVal_setAssoc, if_pos rfl]

theorem getVal_enforce_enableJetifier (ps : List (String × String)) :
    getVal (enforceList ps) "android.enableJetifier" = some "true" := by
  unfold enforceList
  rw [getVal_setAssoc, if_neg (by decide), getVal_setAssoc, if_pos rfl]

theorem getVal_enforce_jvmargs (ps : List (String × String)) :
    getVal (enforceList ps) "org.gradle.jvmargs" = some "-Xmx2048m" := by
  unfold enforceList
  rw [getVal_setAssoc, if_pos rfl]

theorem getVal_enforce_other (ps : List (String × String)) (k : String)
    (hk : k ∉ mandatoryKeys) : getVal (enforceList ps) k = getVal ps k := by
  have h1 : ¬ k = "android.useAndroidX" := fun e => hk (by simp [mandatoryKeys, e])
  have h2 : ¬ k = "android.enableJetifier" := fun e => hk (by simp [mandatoryKeys, e])
  have h3 : ¬ k = "org.gradle.jvmargs" := fun e => hk (by simp [mandatoryKeys, e])
  unfold enforceList
  rw [getVal_setAssoc, if_neg h3, getVal_setAssoc, if_neg h2, getVal_setAssoc, if_neg h1]

theorem mapFst_enforce (ps : List (String × String)) :
    (enforceList ps).map Prod.fst =
      ps.map Prod.fst ++
        ((if "android.useAndroidX" ∈ ps.map Prod.fst then [] else ["android.useAndroidX"]) ++
         (if "android.enableJetifier" ∈ ps.map Prod.fst then [] else ["android.enableJetifier"]) ++
         (if "org.gradle.jvmargs" ∈ ps.map Prod.fst then [] else ["org.gradle.jvmargs"])) := by
  unfold enforceList
  by_cases h1 : "android.useAndroidX" ∈ ps.map Prod.fst <;>
    by_cases h2 : "android.enableJetifier" ∈ ps.map Prod.fst <;>
      by_cases h3 : "org.gradle.jvmargs" ∈ ps.map Prod.fst <;>
        simp [mapFst_setAssoc, h1, h2, h3]

theorem enforce_stable {ps : List (String × String)} (hnd : (ps.map Prod.fst).Nodup)
    (h1 : getVal ps "android.useAndroidX" = some "true")
    (h2 : getVal ps "android.enableJetifier" = some "true")
    (h3 : getVal ps "org.gradle.jvmargs" = some "-Xmx2048m") :
    enforceList ps = ps := by
  unfold enforceList
  rw [setAssoc_self_of_getVal hnd h1, setAssoc_self_of_getVal hnd h2,
    setAssoc_self_of_getVal hnd h3]

theorem parse_enforce (s : String) :
    parseProps (enforceProps s) = enforceList (parseProps s) := by
  unfold enforceProps
  exact parse_serialize (enforce_good (parse_good s)) (enforce_nodup (parse_nodup s))

theorem enforce_idem (s : String) : enforceProps (enforceProps s) = enforceProps s := by
  show serializeProps (enforceList (parseProps (enforceProps s))) = enforceProps s
  rw [parse_enforce]
  rw [enforce_stable (enforce_nodup (parse_nodup s)) (getVal_enforce_useAndroidX _)
    (getVal_enforce_enableJetifier _) (getVal_enforce_jvmargs _)]
  rfl


/-! ### Filesystem step lemmas -/

theorem getFile_setFile_self (fs : FS) (p c : String) :
    getFile (setFile fs p c) p = some c := by
  show getVal (setAssoc fs.files p c) p = some c
  rw [getVal_setAssoc, if_pos rfl]

theorem getFile_setFile_ne (fs : FS) (p c q : String) (h : q ≠ p) :
    getFile (setFile fs p c) q = getFile fs q := by
  show getVal (setAssoc fs.files p c) q = getVal fs.files q
  rw [getVal_setAssoc, if_neg h]

theorem pathExists_setFile_self (fs : FS) (p c : String) :
    pathExists (setFile fs p c) p = true := by
  unfold pathExists fileExists
  rw [getFile_setFile_self]
  rfl

theorem pathExists_setFile_ne (fs : FS) (p c q : String) (h : q ≠ p) :
    pathExists (setFile fs p c) q = pathExists fs q := by
  unfold pathExists fileExists
  rw [getFile_setFile_ne fs p c q h]
  rfl

theorem getFile_addDir (fs : FS) (d q : String) : getFile (addDir fs d) q = getFile fs q := by
  unfold addDir
  split <;> rfl

theorem pathExists_addDir_ne (fs : FS) (d q : String) (h : q ≠ d) :
    pathExists (addDir fs d) q = pathExists fs q := by
  unfold addDir
  split
  · rfl
  · unfold pathExists fileExists getFile
    simp [h]

theorem getFile_chmod (fs : FS) (p : String) (m : Nat) (q : String) :
    getFile (chmodFile fs p m) q = getFile fs q := rfl

theorem pathExists_chmod (fs : FS) (p : String) (m : Nat) (q : String) :
    pathExists (chmodFile fs p m) q = pathExists fs q := rfl

theorem fetched_chmod (fs : FS) (p : String) (m : Nat) :
    (chmodFile fs p m).fetched = fs.fetched := rfl

theorem getFile_logFetch (fs : FS) (u q : String) : getFile (logFetch fs u) q = getFile fs q :=
  rfl

theorem getPerm_chmod_self (fs : FS) (p : String) (m : Nat) :
    getPerm (chmodFile fs p m) p = some m := by
  show getVal (setAssoc fs.perms p m) p = some m
  rw [getVal_setAssoc, if_pos rfl]

theorem getVal_filter_keep {α : Type} (f : String × α → Bool) (l : List (String × α))
    (q : String) (h : ∀ x : String × α, x.1 = q → f x = true) :
    getVal (l.filter f) q = getVal l q := by
  induction l with
  | nil => rfl
  | cons x rest ih =>
    rw [List.filter_cons]
    by_cases hx : x.1 = q
    · rw [if_pos (h x hx)]
      simp [getVal, hx, ih]
    · cases hfx : f x <;> simp [getVal, hx, ih]

theorem getFile_removeFile_ne (fs : FS) (p q : String) (h : q ≠ p) :
    getFile (removeFile fs p) q = getFile fs q := by
  apply getVal_filter_keep
  intro x hx
  simp [hx, h]

theorem getFile_removeUnder_ne (fs : FS) (pre q : String) (h : ¬ pre.data <+: q.data) :
    getFile (removeUnder fs pre) q = getFile fs q := by
  apply getVal_filter_keep
  intro x hx
  have hb : pre.data.isPrefixOf q.data = false := by
    cases hb : pre.data.isPrefixOf q.data
    · rfl
    · exact absurd ( List.isPrefixOf_iff_prefix.1 hb) h
  rw [hx, hb]
  rfl

theorem pathExists_removeFile_ne (fs : FS) (p q : String) (h : q ≠ p) :
    pathExists (removeFile fs p) q = pathExists fs q := by
  unfold pathExists fileExists
  rw [getFile_removeFile_ne fs p q h]
  rfl

theorem pathExists_removeUnder_ne (fs : FS) (pre q : String) (h : ¬ pre.data <+: q.data) :
    pathExists (removeUnder fs pre) q = pathExists fs q := by
  unfold pathExists fileExists
  rw [getFile_removeUnder_ne fs pre q h]
  rfl

/-! ### Backup stage lemmas -/

theorem backupPath_eq_append (f ts : String) :
    backupPath f ts = ".prepush_backup/" ++ (f ++ ("." ++ (ts ++ ".bak"))) := by
  unfold backupPath
  rw [String.append_assoc, String.append_assoc, String.append_assoc]

theorem ne_backupPath {q : String} (f ts : String)
    (h : ¬ (".prepush_backup/" : String).data <+: q.data) : q ≠ backupPath f ts := by
  intro e
  exact ne_of_not_pre h (by rw [backupPath_eq_append] at e; exact e.symm)

theorem getFile_copyIf_ne (fs : FS) (ts f q : String) (h : q ≠ backupPath f ts) :
    getFile (copyIf fs ts f) q = getFile fs q := by
  unfold copyIf
  cases getFile fs f with
  | none => rfl
  | some c => exact getFile_setFile_ne _ _ _ _ h

theorem pathExists_copyIf_ne (fs : FS) (ts f q : String) (h : q ≠ backupPath f ts) :
    pathExists (copyIf fs ts f) q = pathExists fs q := by
  unfold copyIf
  cases getFile fs f with
  | none => rfl
  | some c => exact pathExists_setFile_ne _ _ _ _ h

theorem getFile_backupStep_ne (fs : FS) (ts q : String)
    (h : ¬ (".prepush_backup/" : String).data <+: q.data) :
    getFile (backupStep fs ts) q = getFile fs q := by
  unfold backupStep
  split
  · rfl
  · rw [getFile_copyIf_ne _ _ _ _ (ne_backupPath _ _ h),
      getFile_copyIf_ne _ _ _ _ (ne_backupPath _ _ h),
      getFile_copyIf_ne _ _ _ _ (ne_backupPath _ _ h), getFile_addDir]

theorem pathExists_backupStep_ne (fs : FS) (ts q : String)
    (h : ¬ (".prepush_backup/" : String).data <+: q.data) (h2 : q ≠ ".prepush_backup") :
    pathExists (backupStep fs ts) q = pathExists fs q := by
  unfold backupStep
  split
  · rfl
  · rw [pathExists_copyIf_ne _ _ _ _ (ne_backupPath _ _ h),
      pathExists_copyIf_ne _ _ _ _ (ne_backupPath _ _ h),
      pathExists_copyIf_ne _ _ _ _ (ne_backupPath _ _ h), pathExists_addDir_ne _ _ _ h2]

/-! ### Concrete path disequalities -/

theorem not_pre_backup_settings :
    ¬ (".prepush_backup/" : String).data <+: ("settings.gradle" : String).data := by decide

theorem not_pre_backup_build :
    ¬ (".prepush_backup/" : String).data <+: ("build.gradle" : String).data := by decide

theorem not_pre_backup_props :
    ¬ (".prepush_backup/" : String).data <+: ("gradle.properties" : String).data := by decide

theorem not_pre_backup_wpp :
    ¬ (".prepush_backup/" : String).data <+: wrapperPropsPath.data := by decide

theorem not_pre_backup_wjp :
    ¬ (".prepush_backup/" : String).data <+: wrapperJarPath.data := by decide

theorem not_pre_backup_gradlew :
    ¬ (".prepush_backup/" : String).data <+: ("gradlew" : String).data := by decide

theorem not_pre_backup_zip :
    ¬ (".prepush_backup/" : String).data <+: zipName.data := by decide

/-! ### Wrapper install lemmas -/

theorem ne_gw_append {x q : String}
    (h : ¬ ("gradle/wrapper/" : String).data <+: q.data) : q ≠ "gradle/wrapper/" ++ x :=
  fun e => ne_of_not_pre h e.symm

theorem not_pre_base {q : String} (t : String)
    (h : ¬ ("gradle/wrapper/" : String).data <+: q.data) :
    ¬ ("gradle/wrapper/" ++ t ++ "/" : String).data <+: q.data := by
  intro hc
  apply h
  rw [show ("gradle/wrapper/" ++ t ++ "/" : String) = "gradle/wrapper/" ++ (t ++ "/") from
    String.append_assoc _ _ _, String.data_append] at hc
  exact (List.prefix_append _ _).trans hc

theorem not_base_pre_wjp (t : String) :
    ¬ ("gradle/wrapper/" ++ t ++ "/" : String).data <+: wrapperJarPath.data := by
  intro hc
  rw [show ("gradle/wrapper/" ++ t ++ "/" : String) = "gradle/wrapper/" ++ (t ++ "/") from
    String.append_assoc _ _ _, String.data_append] at hc
  rw [show wrapperJarPath.data
      = ("gradle/wrapper/" : String).data ++ ("gradle-wrapper.jar" : String).data from by
    decide] at hc
  have h2 := (List.prefix_append_right_inj _).1 hc
  have hm : '/' ∈ (t ++ "/" : String).data := by
    rw [String.data_append]; simp
  exact absurd (h2.subset hm) (by decide)

theorem not_base_pre_wpp (t : String) :
    ¬ ("gradle/wrapper/" ++ t ++ "/" : String).data <+: wrapperPropsPath.data := by
  intro hc
  rw [show ("gradle/wrapper/" ++ t ++ "/" : String) = "gradle/wrapper/" ++ (t ++ "/") from
    String.append_assoc _ _ _, String.data_append] at hc
  rw [show wrapperPropsPath.data
      = ("gradle/wrapper/" : String).data ++ ("gradle-wrapper.properties" : String).data from by
    decide] at hc
  have h2 := (List.prefix_append_right_inj _).1 hc
  have hm : '/' ∈ (t ++ "/" : String).data := by
    rw [String.data_append]; simp
  exact absurd (h2.subset hm) (by decide)

theorem extract_ne_wpp {jarSrc : String}
    (hj : pyEndsWith jarSrc "gradle-wrapper.jar" = true) :
    wrapperPropsPath ≠ "gradle/wrapper/" ++ jarSrc := by
  intro e
  have hdata : ("gradle/wrapper/" : String).data ++ jarSrc.data = wrapperPropsPath.data := by
    rw [← String.data_append, e.symm]
  rw [show wrapperPropsPath.data
      = ("gradle/wrapper/" : String).data ++ ("gradle-wrapper.properties" : String).data from by
    decide] at hdata
  have hjs : jarSrc = "gradle-wrapper.properties" := String.ext (List.append_cancel_left hdata)
  rw [hjs] at hj
  exact absurd hj (by decide)

theorem getFile_downloadZip_ne (fs : FS) (net : Net) (q : String) (h : q ≠ zipName) :
    getFile (downloadZip fs net) q = getFile fs q := by
  unfold downloadZip
  rw [getFile_setFile_ne _ _ _ _ h, getFile_logFetch]

theorem getFile_downloadZip_zip (fs : FS) (net : Net) :
    getFile (downloadZip fs net) zipName = some net.zipContent :=
  getFile_setFile_self _ _ _

theorem pathExists_logFetch (fs : FS) (u q : String) :
    pathExists (logFetch fs u) q = pathExists fs q := rfl

theorem pathExists_downloadZip_ne (fs : FS) (net : Net) (q : String) (h : q ≠ zipName) :
    pathExists (downloadZip fs net) q = pathExists fs q := by
  unfold downloadZip
  rw [pathExists_setFile_ne _ _ _ _ h, pathExists_logFetch]

theorem getFile_extractJar_jar (fs : FS) (net : Net) (jarSrc : String) :
    getFile (extractJar fs net jarSrc) wrapperJarPath
      = some ((getVal net.entries jarSrc).getD "") := by
  unfold extractJar
  rw [getFile_removeFile_ne _ _ _ (by decide : wrapperJarPath ≠ zipName),
    getFile_removeUnder_ne _ _ _ (not_base_pre_wjp _), getFile_setFile_self]

theorem getFile_extractJar_ne (fs : FS) (net : Net) (jarSrc q : String)
    (hq1 : ¬ ("gradle/wrapper/" : String).data <+: q.data) (hq2 : q ≠ zipName) :
    getFile (extractJar fs net jarSrc) q = getFile fs q := by
  have hwjp : q ≠ wrapperJarPath := fun e => hq1 (by rw [e]; decide)
  have hep : q ≠ "gradle/wrapper/" ++ jarSrc := ne_gw_append hq1
  unfold extractJar
  rw [getFile_removeFile_ne _ _ _ hq2, getFile_removeUnder_ne _ _ _ (not_pre_base _ hq1),
    getFile_setFile_ne _ _ _ _ hwjp, getFile_removeFile_ne _ _ _ hep,
    getFile_setFile_ne _ _ _ _ hep]

theorem getFile_extractJar_wpp (fs : FS) (net : Net) {jarSrc : String}
    (hj : pyEndsWith jarSrc "gradle-wrapper.jar" = true) :
    getFile (extractJar fs net jarSrc) wrapperPropsPath = getFile fs wrapperPropsPath := by
  unfold extractJar
  rw [getFile_removeFile_ne _ _ _ (by decide : wrapperPropsPath ≠ zipName),
    getFile_removeUnder_ne _ _ _ (not_base_pre_wpp _),
    getFile_setFile_ne _ _ _ _ (by decide : wrapperPropsPath ≠ wrapperJarPath),
    getFile_removeFile_ne _ _ _ (extract_ne_wpp hj),
    getFile_setFile_ne _ _ _ _ (extract_ne_wpp hj)]

theorem pathExists_extractJar_ne (fs : FS) (net : Net) (jarSrc q : String)
    (hq1 : ¬ ("gradle/wrapper/" : String).data <+: q.data) (hq2 : q ≠ zipName) :
    pathExists (extractJar fs net jarSrc) q = pathExists fs q := by
  have hwjp : q ≠ wrapperJarPath := fun e => hq1 (by rw [e]; decide)
  have hep : q ≠ "gradle/wrapper/" ++ jarSrc := ne_gw_append hq1
  unfold extractJar
  rw [pathExists_removeFile_ne _ _ _ hq2, pathExists_removeUnder_ne _ _ _ (not_pre_base _ hq1),
    pathExists_setFile_ne _ _ _ _ hwjp, pathExists_removeFile_ne _ _ _ hep,
    pathExists_setFile_ne _ _ _ _ hep]

/-! ### Fetch log lemmas -/

theorem fetched_addDir (fs : FS) (d : String) : (addDir fs d).fetched = fs.fetched := by
  unfold addDir; split <;> rfl

theorem fetched_copyIf (fs : FS) (ts f : String) : (copyIf fs ts f).fetched = fs.fetched := by
  unfold copyIf; cases getFile fs f <;> rfl

theorem fetched_backupStep (fs : FS) (ts : String) :
    (backupStep fs ts).fetched = fs.fetched := by
  unfold backupStep
  split
  · rfl
  · rw [fetched_copyIf, fetched_copyIf, fetched_copyIf, fetched_addDir]

theorem fetched_enforcePropsStep (fs : FS) : (enforcePropsStep fs).fetched = fs.fetched := rfl

theorem fetched_wrapperPropsStep (fs : FS) : (wrapperPropsStep fs).fetched = fs.fetched := by
  unfold wrapperPropsStep; split <;> rfl

theorem fetched_stageA (fs : FS) (ts : String) : (stageA fs ts).fetched = fs.fetched := by
  unfold stageA
  rw [fetched_wrapperPropsStep, fetched_addDir, fetched_addDir, fetched_enforcePropsStep]
  show (setFile _ _ _).fetched = _
  rw [show ∀ (g : FS) (p c : String), (setFile g p c).fetched = g.fetched from fun _ _ _ => rfl,
    show ∀ (g : FS) (p c : String), (setFile g p c).fetched = g.fetched from fun _ _ _ => rfl,
    fetched_backupStep]

theorem fetched_extractJar (fs : FS) (net : Net) (jarSrc : String) :
    (extractJar fs net jarSrc).fetched = fs.fetched := rfl

/-! ### Pipeline (stageA) lemmas -/

theorem getFile_enforceStep_ne (fs : FS) (q : String) (h : q ≠ "gradle.properties") :
    getFile (enforcePropsStep fs) q = getFile fs q :=
  getFile_setFile_ne _ _ _ _ h

theorem getFile_enforceStep_props (fs : FS) :
    getFile (enforcePropsStep fs) "gradle.properties"
      = some (enforceProps ((getFile fs "gradle.properties").getD "")) :=
  getFile_setFile_self _ _ _

theorem pathExists_enforceStep_ne (fs : FS) (q : String) (h : q ≠ "gradle.properties") :
    pathExists (enforcePropsStep fs) q = pathExists fs q :=
  pathExists_setFile_ne _ _ _ _ h

theorem getFile_core_ne (fs : FS) (ts q : String)
    (h0 : ¬ (".prepush_backup/" : String).data <+: q.data)
    (h1 : q ≠ "settings.gradle") (h2 : q ≠ "build.gradle") (h3 : q ≠ "gradle.properties") :
    getFile
      (addDir
        (addDir
          (enforcePropsStep
            (setFile (setFile (backupStep fs ts) "settings.gradle" settingsTemplate)
              "build.gradle" buildTemplate))
          "gradle")
        "gradle/wrapper") q = getFile fs q := by
  rw [getFile_addDir, getFile_addDir, getFile_enforceStep_ne _ _ h3,
    getFile_setFile_ne _ _ _ _ h2, getFile_setFile_ne _ _ _ _ h1,
    getFile_backupStep_ne _ _ _ h0]

theorem getFile_stageA_ne (fs : FS) (ts q : String)
    (h0 : ¬ (".prepush_backup/" : String).data <+: q.data)
    (h1 : q ≠ "settings.gradle") (h2 : q ≠ "build.gradle") (h3 : q ≠ "gradle.properties")
    (h4 : q ≠ wrapperPropsPath) :
    getFile (stageA fs ts) q = getFile fs q := by
  unfold stageA wrapperPropsStep
  split
  · exact getFile_core_ne fs ts q h0 h1 h2 h3
  · rw [getFile_setFile_ne _ _ _ _ h4]
    exact getFile_core_ne fs ts q h0 h1 h2 h3

theorem pathExists_core_ne (fs : FS) (ts q : String)
    (h0 : ¬ (".prepush_backup/" : String).data <+: q.data) (hb : q ≠ ".prepush_backup")
    (h1 : q ≠ "settings.gradle") (h2 : q ≠ "build.gradle") (h3 : q ≠ "gradle.properties")
    (h5 : q ≠ "gradle") (h6 : q ≠ "gradle/wrapper") :
    pathExists
      (addDir
        (addDir
          (enforcePropsStep
            (setFile (setFile (backupStep fs ts) "settings.gradle" settingsTemplate)
              "build.gradle" buildTemplate))
          "gradle")
        "gradle/wrapper") q = pathExists fs q := by
  rw [pathExists_addDir_ne _ _ _ h6, pathExists_addDir_ne _ _ _ h5,
    pathExists_enforceStep_ne _ _ h3, pathExists_setFile_ne _ _ _ _ h2,
    pathExists_setFile_ne _ _ _ _ h1, pathExists_backupStep_ne _ _ _ h0 hb]

theorem pathExists_stageA_ne (fs : FS) (ts q : String)
    (h0 : ¬ (".prepush_backup/" : String).data <+: q.data) (hb : q ≠ ".prepush_backup")
    (h1 : q ≠ "settings.gradle") (h2 : q ≠ "build.gradle") (h3 : q ≠ "gradle.properties")
    (h4 : q ≠ wrapperPropsPath) (h5 : q ≠ "gradle") (h6 : q ≠ "gradle/wrapper") :
    pathExists (stageA fs ts) q = pathExists fs q := by
  unfold stageA wrapperPropsStep
  split
  · exact pathExists_core_ne fs ts q h0 hb h1 h2 h3 h5 h6
  · rw [pathExists_setFile_ne _ _ _ _ h4]
    exact pathExists_core_ne fs ts q h0 hb h1 h2 h3 h5 h6

theorem getFile_stageA_settings (fs : FS) (ts : String) :
    getFile (stageA fs ts) "settings.gradle" = some settingsTemplate := by
  have hcore : ∀ g : FS,
      getFile
        (addDir
          (addDir
            (enforcePropsStep
              (setFile (setFile g "settings.gradle" settingsTemplate)
                "build.gradle" buildTemplate))
            "gradle")
          "gradle/wrapper") "settings.gradle" = some settingsTemplate := by
    intro g
    rw [getFile_addDir, getFile_addDir, getFile_enforceStep_ne _ _ (by decide),
      getFile_setFile_ne _ _ _ _ (by decide), getFile_setFile_self]
  unfold stageA wrapperPropsStep
  split
  · exact hcore _
  · rw [getFile_setFile_ne _ _ _ _ (by decide)]
    exact hcore _

theorem getFile_stageA_build (fs : FS) (ts : String) :
    getFile (stageA fs ts) "build.gradle" = some buildTemplate := by
  have hcore : ∀ g : FS,
      getFile
        (addDir
          (addDir
            (enforcePropsStep
              (setFile (setFile g "settings.gradle" settingsTemplate)
                "build.gradle" buildTemplate))
            "gradle")
          "gradle/wrapper") "build.gradle" = some buildTemplate := by
    intro g
    rw [getFile_addDir, getFile_addDir, getFile_enforceStep_ne _ _ (by decide),
      getFile_setFile_self]
  unfold stageA wrapperPropsStep
  split
  · exact hcore _
  · rw [getFile_setFile_ne _ _ _ _ (by decide)]
    exact hcore _

theorem getFile_stageA_props (fs : FS) (ts : String) :
    getFile (stageA fs ts) "gradle.properties"
      = some (enforceProps ((getFile fs "gradle.properties").getD "")) := by
  have hcore :
      getFile
        (addDir
          (addDir
            (enforcePropsStep
              (setFile (setFile (backupStep fs ts) "settings.gradle" settingsTemplate)
                "build.gradle" buildTemplate))
            "gradle")
          "gradle/wrapper") "gradle.properties"
        = some (enforceProps ((getFile fs "gradle.properties").getD "")) := by
    rw [getFile_addDir, getFile_addDir, getFile_enforceStep_props]
    rw [getFile_setFile_ne _ _ _ _ (by decide : ("gradle.properties" : String) ≠ "build.gradle"),
      getFile_setFile_ne _ _ _ _
        (by decide : ("gradle.properties" : String) ≠ "settings.gradle"),
      getFile_backupStep_ne _ _ _ not_pre_backup_props]
  unfold stageA wrapperPropsStep
  split
  · exact hcore
  · rw [getFile_setFile_ne _ _ _ _ (by decide)]
    exact hcore

/-! ### installJar and run shape lemmas -/

theorem installJar_of_exists (fs : FS) (net : Net)
    (h : pathExists fs wrapperJarPath = true) : installJar fs net = .ok fs := by
  unfold installJar
  rw [if_pos h]

theorem installJar_err_shape (fs : FS) (net : Net)
    (h : pathExists fs wrapperJarPath = false)
    (hempty : net.namelist.filter (fun n => pyEndsWith n "gradle-wrapper.jar") = []) :
    installJar fs net
      = .err "gradle-wrapper.jar not found in Gradle distribution" (downloadZip fs net) := by
  unfold installJar
  rw [if_neg (by simp [h]), hempty]

theorem installJar_extract_shape (fs : FS) (net : Net)
    (h : pathExists fs wrapperJarPath = false) {j : String} {rest : List String}
    (hfil : net.namelist.filter (fun n => pyEndsWith n "gradle-wrapper.jar") = j :: rest) :
    installJar fs net = .ok (extractJar (downloadZip fs net) net j) := by
  unfold installJar
  rw [if_neg (by simp [h]), hfil]

theorem installJar_ok_inv {fs : FS} {net : Net} {g : FS} (h : installJar fs net = .ok g) :
    (pathExists fs wrapperJarPath = true ∧ g = fs) ∨
    (pathExists fs wrapperJarPath = false ∧
      ∃ j rest, net.namelist.filter (fun n => pyEndsWith n "gradle-wrapper.jar") = j :: rest ∧
        g = extractJar (downloadZip fs net) net j) := by
  unfold installJar at h
  by_cases hex : pathExists fs wrapperJarPath = true
  · rw [if_pos hex] at h
    exact Or.inl ⟨hex, (RunResult.ok.inj h).symm⟩
  · rw [if_neg hex] at h
    have hex' : pathExists fs wrapperJarPath = false := by
      cases hpe : pathExists fs wrapperJarPath
      · rfl
      · exact absurd hpe hex
    cases hfil : net.namelist.filter (fun n => pyEndsWith n "gradle-wrapper.jar") with
    | nil => rw [hfil] at h; exact absurd h (by simp)
    | cons j rest =>
      rw [hfil] at h
      exact Or.inr ⟨hex', j, rest, rfl, (RunResult.ok.inj h).symm⟩

theorem run_err_of_find {fs : FS} {net : Net} {ts r : String}
    (h : requiredItems.find? (fun x => !(pathExists fs x)) = some r) :
    run fs net ts = .err ("Missing required project item: " ++ r) fs := by
  unfold run
  rw [h]

theorem run_ok_inv {fs : FS} {net : Net} {ts : String} {g : FS}
    (h : run fs net ts = .ok g) :
    requiredItems.find? (fun r => !(pathExists fs r)) = none ∧
    ∃ f7, installJar (stageA fs ts) net = .ok f7 ∧ pathExists f7 "gradlew" = true ∧
      g = chmodFile f7 "gradlew" 493 := by
  unfold run at h
  cases hfind : requiredItems.find? (fun r => !(pathExists fs r)) with
  | some r => rw [hfind] at h; exact absurd h (by simp)
  | none =>
    rw [hfind] at h
    dsimp only at h
    refine ⟨rfl, ?_⟩
    cases hij : installJar (stageA fs ts) net with
    | err m efs => rw [hij] at h; exact absurd h (by simp)
    | ok f7 =>
      rw [hij] at h
      dsimp only at h
      by_cases hg : pathExists f7 "gradlew" = true
      · rw [if_pos hg] at h
        exact ⟨f7, rfl, hg, (RunResult.ok.inj h).symm⟩
      · rw [if_neg hg] at h
        exact absurd h (by simp)

/-! ### Backup path helpers -/

theorem backupq_ne {y s : String} (hs : s.data.head? ≠ some '.') :
    ".prepush_backup/" ++ y ≠ s := by
  intro e
  have h1 : (".prepush_backup/" ++ y).data.head? = some '.' := by
    rw [String.data_append]; rfl
  rw [e] at h1
  exact hs h1

theorem gw_not_pre_backup (y : String) :
    ¬ ("gradle/wrapper/" : String).data <+: (".prepush_backup/" ++ y).data := by
  intro hc
  rcases hc with ⟨t, ht⟩
  rw [String.data_append] at ht
  have h1 : (("gradle/wrapper/" : String).data ++ t).head? = some 'g' := rfl
  have h2 : ((".prepush_backup/" : String).data ++ y.data).head? = some '.' := rfl
  rw [ht, h2] at h1
  exact absurd h1 (by decide)

theorem backup_ne_zip (y : String) : ".prepush_backup/" ++ y ≠ zipName :=
  backupq_ne (by decide)

theorem getFile_stageA_backup (fs : FS) (ts y : String) :
    getFile (stageA fs ts) (".prepush_backup/" ++ y)
      = getFile (backupStep fs ts) (".prepush_backup/" ++ y) := by
  have hcore : ∀ g : FS,
      getFile
        (addDir
          (addDir
            (enforcePropsStep
              (setFile (setFile g "settings.gradle" settingsTemplate)
                "build.gradle" buildTemplate))
            "gradle")
          "gradle/wrapper") (".prepush_backup/" ++ y)
        = getFile g (".prepush_backup/" ++ y) := by
    intro g
    rw [getFile_addDir, getFile_addDir, getFile_enforceStep_ne _ _ (backupq_ne (by decide)),
      getFile_setFile_ne _ _ _ _ (backupq_ne (by decide)),
      getFile_setFile_ne _ _ _ _ (backupq_ne (by decide))]
  unfold stageA wrapperPropsStep
  split
  · exact hcore _
  · rw [getFile_setFile_ne _ _ _ _ (backupq_ne (by decide))]
    exact hcore _

theorem backupPath_ne {f f' : String} (ts : String)
    (h : f.data.length ≠ f'.data.length) : backupPath f ts ≠ backupPath f' ts := by
  intro e
  have hlen := congrArg (fun s => s.data.length) e
  simp only [backupPath, String.data_append, List.length_append] at hlen
  omega

theorem getFile_copyIf_bp (x : FS) (ts f : String)
    (hnone : getFile x (backupPath f ts) = none) :
    getFile (copyIf x ts f) (backupPath f ts) = getFile x f := by
  unfold copyIf
  cases hs : getFile x f with
  | none => exact hnone
  | some c => exact getFile_setFile_self _ _ _

theorem backupStep_skip (fs : FS) (ts : String)
    (h : pathExists fs ".prepush_backup" = true) : backupStep fs ts = fs := by
  unfold backupStep
  rw [if_pos h]

/-! ### Directory tracking lemmas -/

theorem dirs_setFile (fs : FS) (p c : String) : (setFile fs p c).dirs = fs.dirs := rfl

theorem dirs_copyIf (fs : FS) (ts f : String) : (copyIf fs ts f).dirs = fs.dirs := by
  unfold copyIf
  cases getFile fs f <;> rfl

theorem dirs_enforceStep (fs : FS) : (enforcePropsStep fs).dirs = fs.dirs := rfl

theorem dirs_wrapperPropsStep (fs : FS) : (wrapperPropsStep fs).dirs = fs.dirs := by
  unfold wrapperPropsStep
  split <;> rfl

theorem dirs_extractJar (fs : FS) (net : Net) (j : String) :
    (extractJar fs net j).dirs = fs.dirs := rfl

theorem dirs_downloadZip (fs : FS) (net : Net) : (downloadZip fs net).dirs = fs.dirs := rfl

theorem dirs_chmod (fs : FS) (p : String) (m : Nat) : (chmodFile fs p m).dirs = fs.dirs := rfl

theorem mem_dirs_addDir {fs : FS} {d : String} (d' : String) (h : d ∈ fs.dirs) :
    d ∈ (addDir fs d').dirs := by
  unfold addDir
  split
  · exact h
  · simp [h]

theorem mem_addDir_self (fs : FS) (d : String) : d ∈ (addDir fs d).dirs := by
  unfold addDir
  split
  · assumption
  · simp

theorem mem_dirs_backupStep_fresh (fs : FS) (ts : String)
    (h : pathExists fs ".prepush_backup" = false) :
    ".prepush_backup" ∈ (backupStep fs ts).dirs := by
  unfold backupStep
  rw [if_neg (by simp [h])]
  rw [dirs_copyIf, dirs_copyIf, dirs_copyIf]
  exact mem_addDir_self fs ".prepush_backup"

theorem mem_dirs_stageA {fs : FS} {ts : String} {d : String}
    (h : d ∈ (backupStep fs ts).dirs) : d ∈ (stageA fs ts).dirs := by
  unfold stageA
  rw [dirs_wrapperPropsStep]
  exact mem_dirs_addDir _ (mem_dirs_addDir _ (by rw [dirs_enforceStep, dirs_setFile, dirs_setFile]; exact h))

/-! ### Fresh backup content -/

theorem backupStep_fresh (fs : FS) (ts : String)
    (h : pathExists fs ".prepush_backup" = false)
    (hclean : ∀ y, getFile fs (".prepush_backup/" ++ y) = none) :
    (∀ f ∈ backupNames, getFile (backupStep fs ts) (backupPath f ts) = getFile fs f) ∧
    (∀ y, (∀ f ∈ backupNames, ".prepush_backup/" ++ y ≠ backupPath f ts) →
      getFile (backupStep fs ts) (".prepush_backup/" ++ y) = none) := by
  have hcleanbp : ∀ f, getFile fs (backupPath f ts) = none := by
    intro f
    rw [backupPath_eq_append]
    exact hclean _
  have hAclean : ∀ f, getFile (addDir fs ".prepush_backup") (backupPath f ts) = none := by
    intro f
    rw [getFile_addDir]
    exact hcleanbp f
  have hAsrc : ∀ q, getFile (addDir fs ".prepush_backup") q = getFile fs q :=
    fun q => getFile_addDir fs _ q
  have hns : ("settings.gradle" : String) ≠ backupPath "settings.gradle" ts :=
    ne_backupPath _ _ not_pre_backup_settings
  have hnb : ("build.gradle" : String) ≠ backupPath "settings.gradle" ts :=
    ne_backupPath _ _ not_pre_backup_build
  have hnb2 : ("build.gradle" : String) ≠ backupPath "build.gradle" ts :=
    ne_backupPath _ _ not_pre_backup_build
  have hnp1 : ("gradle.properties" : String) ≠ backupPath "settings.gradle" ts :=
    ne_backupPath _ _ not_pre_backup_props
  have hnp2 : ("gradle.properties" : String) ≠ backupPath "build.gradle" ts :=
    ne_backupPath _ _ not_pre_backup_props
  have hsb : backupPath "settings.gradle" ts ≠ backupPath "build.gradle" ts :=
    backupPath_ne ts (by decide)
  have hsp : backupPath "settings.gradle" ts ≠ backupPath "gradle.properties" ts :=
    backupPath_ne ts (by decide)
  have hbp : backupPath "build.gradle" ts ≠ backupPath "gradle.properties" ts :=
    backupPath_ne ts (by decide)
  unfold backupStep
  rw [if_neg (by simp [h])]
  constructor
  · intro f hf
    simp only [backupNames, List.mem_cons, List.not_mem_nil, or_false] at hf
    rcases hf with rfl | rfl | rfl
    · -- settings.gradle: copied first
      rw [getFile_copyIf_ne _ _ _ _ hsp, getFile_copyIf_ne _ _ _ _ hsb,
        getFile_copyIf_bp _ _ _ (hAclean _), hAsrc]
    · -- build.gradle: copied second
      rw [getFile_copyIf_ne _ _ _ _ hbp,
        getFile_copyIf_bp _ _ _ (by rw [getFile_copyIf_ne _ _ _ _ hsb.symm]; exact hAclean _),
        getFile_copyIf_ne _ _ _ _ hnb, hAsrc]
    · -- gradle.properties: copied third
      rw [getFile_copyIf_bp _ _ _ (by
          rw [getFile_copyIf_ne _ _ _ _ hbp.symm, getFile_copyIf_ne _ _ _ _ hsp.symm]
          exact hAclean _),
        getFile_copyIf_ne _ _ _ _ hnp2, getFile_copyIf_ne _ _ _ _ hnp1, hAsrc]
  · intro y hy
    rw [getFile_copyIf_ne _ _ _ _ (hy _ (by simp [backupNames])),
      getFile_copyIf_ne _ _ _ _ (hy _ (by simp [backupNames])),
      getFile_copyIf_ne _ _ _ _ (hy _ (by simp [backupNames])), hAsrc]
    exact hclean y

/-! ### High-level run lemmas -/

theorem exists_ok_of_isOk {r : RunResult} (h : isOk r = true) : ∃ g, r = .ok g := by
  cases r with
  | ok g => exact ⟨g, rfl⟩
  | err m fs => simp [isOk] at h

theorem getFile_runOk {fs : FS} {net : Net} {ts : String} {g : FS}
    (h : run fs net ts = .ok g) (q : String)
    (hq1 : ¬ ("gradle/wrapper/" : String).data <+: q.data) (hq2 : q ≠ zipName) :
    getFile g q = getFile (stageA fs ts) q := by
  obtain ⟨-, f7, hij, -, rfl⟩ := run_ok_inv h
  rw [getFile_chmod]
  rcases installJar_ok_inv hij with ⟨-, rfl⟩ | ⟨-, j, rest, -, rfl⟩
  · rfl
  · rw [getFile_extractJar_ne _ _ _ _ hq1 hq2, getFile_downloadZip_ne _ _ _ hq2]

theorem installJar_err_inv {fs : FS} {net : Net} {m : String} {efs : FS}
    (h : installJar fs net = .err m efs) :
    m = "gradle-wrapper.jar not found in Gradle distribution" ∧ efs = downloadZip fs net ∧
    pathExists fs wrapperJarPath = false ∧
    net.namelist.filter (fun n => pyEndsWith n "gradle-wrapper.jar") = [] := by
  unfold installJar at h
  by_cases hex : pathExists fs wrapperJarPath = true
  · rw [if_pos hex] at h
    exact absurd h (by simp)
  · rw [if_neg hex] at h
    have hex' : pathExists fs wrapperJarPath = false := by
      cases hpe : pathExists fs wrapperJarPath
      · rfl
      · exact absurd hpe hex
    cases hfil : net.namelist.filter (fun n => pyEndsWith n "gradle-wrapper.jar") with
    | nil =>
      rw [hfil] at h
      injection h with h1 h2
      exact ⟨h1.symm, h2.symm, hex', rfl⟩
    | cons j rest =>
      rw [hfil] at h
      exact absurd h (by simp)

theorem resultFS_run_cases (fs : FS) (net : Net) (ts : String) :
    resultFS (run fs net ts) = fs ∨
    (pathExists (stageA fs ts) wrapperJarPath = false ∧
      resultFS (run fs net ts) = downloadZip (stageA fs ts) net) ∨
    (∃ f7, (f7 = stageA fs ts ∨
        (pathExists (stageA fs ts) wrapperJarPath = false ∧
          ∃ j rest,
            net.namelist.filter (fun n => pyEndsWith n "gradle-wrapper.jar") = j :: rest ∧
            pyEndsWith j "gradle-wrapper.jar" = true ∧
            f7 = extractJar (downloadZip (stageA fs ts) net) net j)) ∧
      (resultFS (run fs net ts) = f7 ∨
        resultFS (run fs net ts) = chmodFile f7 "gradlew" 493)) := by
  unfold run
  cases hfind : requiredItems.find? (fun r => !(pathExists fs r)) with
  | some r => exact Or.inl rfl
  | none =>
    dsimp only
    cases hij : installJar (stageA fs ts) net with
    | err m efs =>
      obtain ⟨-, hefs, hex, -⟩ := installJar_err_inv hij
      exact Or.inr (Or.inl ⟨hex, by subst hefs; rfl⟩)
    | ok f7 =>
      dsimp only
      refine Or.inr (Or.inr ⟨f7, ?_, ?_⟩)
      · rcases installJar_ok_inv hij with ⟨-, rfl⟩ | ⟨hex, j, rest, hfil, rfl⟩
        · exact Or.inl rfl
        · refine Or.inr ⟨hex, j, rest, hfil, ?_, rfl⟩
          have hj : j ∈ net.namelist.filter (fun n => pyEndsWith n "gradle-wrapper.jar") := by
            rw [hfil]; simp
          exact (List.mem_filter.1 hj).2
      · by_cases hg : pathExists f7 "gradlew" = true
        · rw [if_pos hg]
          exact Or.inr rfl
        · rw [if_neg hg]
          exact Or.inl rfl

theorem getFile_stageA_wpp_of_exists (fs : FS) (ts : String)
    (h : pathExists fs wrapperPropsPath = true) :
    getFile (stageA fs ts) wrapperPropsPath = getFile fs wrapperPropsPath := by
  have hcore := pathExists_core_ne fs ts wrapperPropsPath not_pre_backup_wpp
    (by decide) (by decide) (by decide) (by decide) (by decide) (by decide)
  unfold stageA wrapperPropsStep
  rw [if_pos (hcore.trans h)]
  exact getFile_core_ne fs ts wrapperPropsPath not_pre_backup_wpp
    (by decide) (by decide) (by decide)

theorem pathExists_of_getFile {fs : FS} {p c : String} (h : getFile fs p = some c) :
    pathExists fs p = true := by
  unfold pathExists fileExists
  rw [h]
  rfl

theorem pathExists_stageA_jar (fs : FS) (ts : String) :
    pathExists (stageA fs ts) wrapperJarPath = pathExists fs wrapperJarPath :=
  pathExists_stageA_ne fs ts wrapperJarPath not_pre_backup_wjp (by decide) (by decide)
    (by decide) (by decide) (by decide) (by decide) (by decide)

theorem pathExists_stageA_gradlew (fs : FS) (ts : String) :
    pathExists (stageA fs ts) "gradlew" = pathExists fs "gradlew" :=
  pathExists_stageA_ne fs ts "gradlew" not_pre_backup_gradlew (by decide) (by decide)
    (by decide) (by decide) (by decide) (by decide) (by decide)

/-! ### Remaining auxiliary lemmas for the claims -/

theorem splitlines_single (s : String) (hbf : ∀ c ∈ s.data, isBreak c = false)
    (hne : s.data ≠ []) : pySplitlines s = [s] := by
  unfold pySplitlines
  rw [show s.data = s.data ++ [] from (List.append_nil _).symm, slGo_consume s.data hbf [] []]
  simp only [slGo, List.append_nil, List.reverse_eq_nil_iff]
  rw [if_neg hne]
  rw [List.reverse_reverse, strMk_data]

/-! ### The claims -/

/-- C1: on a pre-existing gradle.properties whose lines each contain a
separator, the enforcer's resulting table has no duplicate keys, binds
the three mandatory keys to their fixed values, preserves every other
key with its parsed value, keeps first-seen insertion order with newly
introduced mandatory keys appended at the end, and the file is written
as `key=value` lines with a trailing newline; in particular the input
`foo=bar` yields `foo=bar` plus the three mandatory lines. -/
theorem C1_props_enforcer (s : String)
    (_hsep : ∀ l ∈ pySplitlines s, '=' ∈ l.data) :
    ((enforceList (parseProps s)).map Prod.fst).Nodup ∧
    getVal (enforceList (parseProps s)) "android.useAndroidX" = some "true" ∧
    getVal (enforceList (parseProps s)) "android.enableJetifier" = some "true" ∧
    getVal (enforceList (parseProps s)) "org.gradle.jvmargs" = some "-Xmx2048m" ∧
    (∀ k, k ∉ mandatoryKeys →
      getVal (enforceList (parseProps s)) k = getVal (parseProps s) k) ∧
    (enforceList (parseProps s)).map Prod.fst =
      (parseProps s).map Prod.fst ++
        ((if "android.useAndroidX" ∈ (parseProps s).map Prod.fst then []
          else ["android.useAndroidX"]) ++
         (if "android.enableJetifier" ∈ (parseProps s).map Prod.fst then []
          else ["android.enableJetifier"]) ++
         (if "org.gradle.jvmargs" ∈ (parseProps s).map Prod.fst then []
          else ["org.gradle.jvmargs"])) ∧
    enforceProps s
      = joinLines ((enforceList (parseProps s)).map (fun p => p.1 ++ "=" ++ p.2)) ++ "\n" ∧
    enforceProps "foo=bar"
      = "foo=bar\nandroid.useAndroidX=true\nandroid.enableJetifier=true\norg.gradle.jvmargs=-Xmx2048m\n" :=
  ⟨enforce_nodup (parse_nodup s), getVal_enforce_useAndroidX _,
    getVal_enforce_enableJetifier _, getVal_enforce_jvmargs _,
    fun k hk => getVal_enforce_other _ k hk, mapFst_enforce _, rfl, by decide⟩

theorem C1_props_enforcer_witness :
    (∀ l ∈ pySplitlines "foo=bar", '=' ∈ l.data) ∧
    enforceProps "foo=bar"
      = "foo=bar\nandroid.useAndroidX=true\nandroid.enableJetifier=true\norg.gradle.jvmargs=-Xmx2048m\n" :=
  ⟨by decide, (C1_props_enforcer "foo=bar" (by decide)).2.2.2.2.2.2.2⟩

/-- C2: over two consecutive successful runs, both runs leave
settings.gradle and build.gradle with the identical fixed templates,
the second run leaves gradle.properties byte-identical to the first
run's output, and the properties rewrite preserves any non-mandatory
key a user adds between runs. -/
theorem C2_rerun_idempotent (fs : FS) (net net2 : Net) (ts ts2 : String)
    (h1 : isOk (run fs net ts) = true)
    (h2 : isOk (run (resultFS (run fs net ts)) net2 ts2) = true) :
    getFile (resultFS (run fs net ts)) "settings.gradle" = some settingsTemplate ∧
    getFile (resultFS (run (resultFS (run fs net ts)) net2 ts2)) "settings.gradle"
      = some settingsTemplate ∧
    getFile (resultFS (run fs net ts)) "build.gradle" = some buildTemplate ∧
    getFile (resultFS (run (resultFS (run fs net ts)) net2 ts2)) "build.gradle"
      = some buildTemplate ∧
    getFile (resultFS (run (resultFS (run fs net ts)) net2 ts2)) "gradle.properties"
      = getFile (resultFS (run fs net ts)) "gradle.properties" ∧
    (∀ s k, k ∉ mandatoryKeys →
      getVal (parseProps (enforceProps s)) k = getVal (parseProps s) k) := by
  obtain ⟨g1, hg1⟩ := exists_ok_of_isOk h1
  have hres1 : resultFS (run fs net ts) = g1 := by rw [hg1]; rfl
  rw [hres1] at h2 ⊢
  obtain ⟨g2, hg2⟩ := exists_ok_of_isOk h2
  have hres2 : resultFS (run g1 net2 ts2) = g2 := by rw [hg2]; rfl
  rw [hres2]
  have hset1 : getFile g1 "settings.gradle" = some settingsTemplate := by
    rw [getFile_runOk hg1 _ (by decide) (by decide), getFile_stageA_settings]
  have hbuild1 : getFile g1 "build.gradle" = some buildTemplate := by
    rw [getFile_runOk hg1 _ (by decide) (by decide), getFile_stageA_build]
  have hset2 : getFile g2 "settings.gradle" = some settingsTemplate := by
    rw [getFile_runOk hg2 _ (by decide) (by decide), getFile_stageA_settings]
  have hbuild2 : getFile g2 "build.gradle" = some buildTemplate := by
    rw [getFile_runOk hg2 _ (by decide) (by decide), getFile_stageA_build]
  have hprops1 : getFile g1 "gradle.properties"
      = some (enforceProps ((getFile fs "gradle.properties").getD "")) := by
    rw [getFile_runOk hg1 _ (by decide) (by decide), getFile_stageA_props]
  have hprops2 : getFile g2 "gradle.properties"
      = some (enforceProps ((getFile g1 "gradle.properties").getD "")) := by
    rw [getFile_runOk hg2 _ (by decide) (by decide), getFile_stageA_props]
  refine ⟨hset1, hset2, hbuild1, hbuild2, ?_, ?_⟩
  · rw [hprops2, hprops1]
    simp only [Option.getD_some]
    rw [enforce_idem]
  · intro s k hk
    rw [parse_enforce, getVal_enforce_other _ k hk]

theorem C2_rerun_idempotent_witness :
    isOk (run fsFull netJar "20240101_000000") = true ∧
    isOk (run (resultFS (run fsFull netJar "20240101_000000")) netJar "20240102_000000")
      = true ∧
    getFile
        (resultFS (run (resultFS (run fsFull netJar "20240101_000000")) netJar
          "20240102_000000")) "gradle.properties"
      = getFile (resultFS (run fsFull netJar "20240101_000000")) "gradle.properties" :=
  ⟨by decide, by decide,
    (C2_rerun_idempotent fsFull netJar netJar "20240101_000000" "20240102_000000"
      (by decide) (by decide)).2.2.2.2.1⟩

/-- C3: a project root missing one of the three required items makes
the run terminate with exit status 1 and a diagnostic naming the first
missing item, before any file is modified (the filesystem at exit is
the input filesystem). -/
theorem C3_preflight (fs : FS) (net : Net) (ts : String)
    (h : pathExists fs "app" = false ∨ pathExists fs "settings.gradle" = false ∨
      pathExists fs "build.gradle" = false) :
    ∃ r, requiredItems.find? (fun x => !(pathExists fs x)) = some r ∧
      run fs net ts = .err ("Missing required project item: " ++ r) fs := by
  cases hA : pathExists fs "app" with
  | false =>
    have hfind : requiredItems.find? (fun x => !(pathExists fs x)) = some "app" := by
      simp [requiredItems, List.find?, hA]
    exact ⟨"app", hfind, run_err_of_find hfind⟩
  | true =>
    cases hS : pathExists fs "settings.gradle" with
    | false =>
      have hfind : requiredItems.find? (fun x => !(pathExists fs x))
          = some "settings.gradle" := by
        simp [requiredItems, List.find?, hA, hS]
      exact ⟨"settings.gradle", hfind, run_err_of_find hfind⟩
    | true =>
      cases hB : pathExists fs "build.gradle" with
      | false =>
        have hfind : requiredItems.find? (fun x => !(pathExists fs x))
            = some "build.gradle" := by
          simp [requiredItems, List.find?, hA, hS, hB]
        exact ⟨"build.gradle", hfind, run_err_of_find hfind⟩
      | true =>
        rcases h with h | h | h
        · rw [hA] at h; exact absurd h (by decide)
        · rw [hS] at h; exact absurd h (by decide)
        · rw [hB] at h; exact absurd h (by decide)

theorem C3_preflight_witness :
    (pathExists fsEmpty "app" = false ∨ pathExists fsEmpty "settings.gradle" = false ∨
      pathExists fsEmpty "build.gradle" = false) ∧
    (∃ r, requiredItems.find? (fun x => !(pathExists fsEmpty x)) = some r ∧
      run fsEmpty netJar "20240101_000000"
        = .err ("Missing required project item: " ++ r) fsEmpty) :=
  ⟨Or.inl (by decide), C3_preflight fsEmpty netJar "20240101_000000" (Or.inl (by decide))⟩

/-- C4: when the backup directory is absent at the start of a clean
successful run, the run creates it and places in it one timestamped
copy of each of the three config files that existed beforehand and
nothing else; when the backup directory already exists, the backup
stage is the identity and nothing under the backup directory changes. -/
theorem C4_backup_once (fs : FS) (net : Net) (ts : String) (g : FS)
    (hrun : run fs net ts = .ok g) :
    (pathExists fs ".prepush_backup" = false →
      (∀ y, getFile fs (".prepush_backup/" ++ y) = none) →
      ".prepush_backup" ∈ g.dirs ∧
      (∀ f, f ∈ backupNames → getFile g (backupPath f ts) = getFile fs f) ∧
      (∀ y, (∀ f ∈ backupNames, ".prepush_backup/" ++ y ≠ backupPath f ts) →
        getFile g (".prepush_backup/" ++ y) = none)) ∧
    (pathExists fs ".prepush_backup" = true →
      backupStep fs ts = fs ∧
      (∀ y, getFile g (".prepush_backup/" ++ y) = getFile fs (".prepush_backup/" ++ y))) := by
  have hbk : ∀ y, getFile g (".prepush_backup/" ++ y)
      = getFile (backupStep fs ts) (".prepush_backup/" ++ y) := by
    intro y
    rw [getFile_runOk hrun _ (gw_not_pre_backup y) (backup_ne_zip y), getFile_stageA_backup]
  constructor
  · intro hno hclean
    obtain ⟨hcontent, hexact⟩ := backupStep_fresh fs ts hno hclean
    refine ⟨?_, ?_, ?_⟩
    · obtain ⟨-, f7, hij, -, rfl⟩ := run_ok_inv hrun
      rw [dirs_chmod]
      have hmem := mem_dirs_stageA (mem_dirs_backupStep_fresh fs ts hno)
      rcases installJar_ok_inv hij with ⟨-, rfl⟩ | ⟨-, j, rest, -, rfl⟩
      · exact hmem
      · rw [dirs_extractJar, dirs_downloadZip]
        exact hmem
    · intro f hf
      have hbp : getFile g (backupPath f ts) = getFile (backupStep fs ts) (backupPath f ts) := by
        rw [backupPath_eq_append]
        exact hbk _
      rw [hbp]
      exact hcontent f hf
    · intro y hy
      rw [hbk y]
      exact hexact y hy
  · intro hyes
    refine ⟨backupStep_skip fs ts hyes, ?_⟩
    intro y
    rw [hbk y, backupStep_skip fs ts hyes]

set_option maxRecDepth 10000 in
theorem C4_backup_once_witness :
    pathExists fsFull ".prepush_backup" = false ∧
    ".prepush_backup" ∈ (resultFS (run fsFull netJar "20240101_000000")).dirs ∧
    getFile (resultFS (run fsFull netJar "20240101_000000"))
        (backupPath "gradle.properties" "20240101_000000")
      = getFile fsFull "gradle.properties" := by
  have hclean : ∀ y, getFile fsFull (".prepush_backup/" ++ y) = none := by
    intro y
    have h1 : ("settings.gradle" : String) ≠ ".prepush_backup/" ++ y :=
      Ne.symm (backupq_ne (by decide))
    have h2 : ("build.gradle" : String) ≠ ".prepush_backup/" ++ y :=
      Ne.symm (backupq_ne (by decide))
    have h3 : ("gradle.properties" : String) ≠ ".prepush_backup/" ++ y :=
      Ne.symm (backupq_ne (by decide))
    have h4 : ("gradlew" : String) ≠ ".prepush_backup/" ++ y :=
      Ne.symm (backupq_ne (by decide))
    simp [fsFull, getFile, getVal, h1, h2, h3, h4]
  have hrun : run fsFull netJar "20240101_000000"
      = .ok (resultFS (run fsFull netJar "20240101_000000")) := by decide
  have h := (C4_backup_once fsFull netJar "20240101_000000" _ hrun).1 (by decide) hclean
  exact ⟨by decide, h.1, h.2.1 "gradle.properties" (by simp [backupNames])⟩

/-- C5: both wrapper sub-steps are guarded: an existing
gradle-wrapper.properties file keeps its content across a run, and an
existing gradle-wrapper.jar file (whatever its content, including the
empty file) keeps its content and suppresses the download entirely. -/
theorem C5_wrapper_guards (fs : FS) (net : Net) (ts : String) (c : String) :
    (getFile fs wrapperPropsPath = some c →
      getFile (resultFS (run fs net ts)) wrapperPropsPath = some c) ∧
    (getFile fs wrapperJarPath = some c →
      getFile (resultFS (run fs net ts)) wrapperJarPath = some c ∧
      (resultFS (run fs net ts)).fetched = fs.fetched) := by
  constructor
  · intro hwpp
    have hex : pathExists fs wrapperPropsPath = true := pathExists_of_getFile hwpp
    have hstage : getFile (stageA fs ts) wrapperPropsPath = some c :=
      (getFile_stageA_wpp_of_exists fs ts hex).trans hwpp
    rcases resultFS_run_cases fs net ts with hcase | ⟨-, hcase⟩ | ⟨f7, hf7, hcase⟩
    · rw [hcase]
      exact hwpp
    · rw [hcase, getFile_downloadZip_ne _ _ _ (by decide)]
      exact hstage
    · have hf7v : getFile f7 wrapperPropsPath = some c := by
        rcases hf7 with rfl | ⟨-, j, rest, hfil, hj, rfl⟩
        · exact hstage
        · rw [getFile_extractJar_wpp _ _ hj, getFile_downloadZip_ne _ _ _ (by decide)]
          exact hstage
      rcases hcase with hcase | hcase
      · rw [hcase]
        exact hf7v
      · rw [hcase, getFile_chmod]
        exact hf7v
  · intro hjar
    have hex : pathExists fs wrapperJarPath = true := pathExists_of_getFile hjar
    have hexA : pathExists (stageA fs ts) wrapperJarPath = true :=
      (pathExists_stageA_jar fs ts).trans hex
    have hstage : getFile (stageA fs ts) wrapperJarPath = some c := by
      rw [getFile_stageA_ne fs ts wrapperJarPath not_pre_backup_wjp (by decide) (by decide)
        (by decide) (by decide)]
      exact hjar
    rcases resultFS_run_cases fs net ts with hcase | ⟨hfalse, -⟩ | ⟨f7, hf7, hcase⟩
    · rw [hcase]
      exact ⟨hjar, rfl⟩
    · rw [hexA] at hfalse
      exact absurd hfalse (by decide)
    · have hf7v : getFile f7 wrapperJarPath = some c ∧ f7.fetched = fs.fetched := by
        rcases hf7 with rfl | ⟨hfalse, -⟩
        · exact ⟨hstage, fetched_stageA fs ts⟩
        · rw [hexA] at hfalse
          exact absurd hfalse (by decide)
      rcases hcase with hcase | hcase
      · rw [hcase]
        exact hf7v
      · rw [hcase, getFile_chmod, fetched_chmod]
        exact hf7v

theorem C5_wrapper_guards_witness :
    getFile fsJar wrapperPropsPath = some "" ∧
    getFile fsJar wrapperJarPath = some "" ∧
    getFile (resultFS (run fsJar netEmpty "20240101_000000")) wrapperPropsPath = some "" ∧
    getFile (resultFS (run fsJar netEmpty "20240101_000000")) wrapperJarPath = some "" ∧
    (resultFS (run fsJar netEmpty "20240101_000000")).fetched = fsJar.fetched := by
  have h := C5_wrapper_guards fsJar netEmpty "20240101_000000" ""
  exact ⟨by decide, by decide, h.1 (by decide), (h.2 (by decide)).1, (h.2 (by decide)).2⟩

/-- C6: when the jar is absent and the downloaded archive has no entry
ending in gradle-wrapper.jar, the run exits with status 1 and the
matching diagnostic, and the downloaded archive file is still on disk
at exit (no cleanup on this failure path). -/
theorem C6_missing_entry (fs : FS) (net : Net) (ts : String)
    (hA : pathExists fs "app" = true) (hS : pathExists fs "settings.gradle" = true)
    (hB : pathExists fs "build.gradle" = true)
    (hjar : pathExists fs wrapperJarPath = false)
    (hnone : ∀ n ∈ net.namelist, pyEndsWith n "gradle-wrapper.jar" = false) :
    errMsg (run fs net ts) = some "gradle-wrapper.jar not found in Gradle distribution" ∧
    getFile (resultFS (run fs net ts)) zipName = some net.zipContent := by
  have hfind : requiredItems.find? (fun x => !(pathExists fs x)) = none := by
    simp [requiredItems, List.find?, hA, hS, hB]
  have hfil : net.namelist.filter (fun n => pyEndsWith n "gradle-wrapper.jar") = [] := by
    rw [List.filter_eq_nil_iff]
    intro n hn
    rw [hnone n hn]
    simp
  have hjarA : pathExists (stageA fs ts) wrapperJarPath = false :=
    (pathExists_stageA_jar fs ts).trans hjar
  have hij := installJar_err_shape (stageA fs ts) net hjarA hfil
  unfold run
  rw [hfind]
  dsimp only
  rw [hij]
  exact ⟨rfl, getFile_downloadZip_zip _ _⟩

theorem C6_missing_entry_witness :
    pathExists fsFull wrapperJarPath = false ∧
    (∀ n ∈ netEmpty.namelist, pyEndsWith n "gradle-wrapper.jar" = false) ∧
    errMsg (run fsFull netEmpty "20240101_000000")
      = some "gradle-wrapper.jar not found in Gradle distribution" ∧
    getFile (resultFS (run fsFull netEmpty "20240101_000000")) zipName
      = some netEmpty.zipContent := by
  have h := C6_missing_entry fsFull netEmpty "20240101_000000" (by decide) (by decide)
    (by decide) (by decide) (by decide)
  exact ⟨by decide, by decide, h.1, h.2⟩

/-- C7: a missing gradlew launcher makes the run exit non-zero with its
diagnostic, and every successful run leaves gradlew's permission bits
at exactly 0755. -/
theorem C7_gradlew_exec (fs : FS) (net : Net) (ts : String) :
    ((pathExists fs "app" = true ∧ pathExists fs "settings.gradle" = true ∧
      pathExists fs "build.gradle" = true ∧ pathExists fs wrapperJarPath = true ∧
      pathExists fs "gradlew" = false) →
      errMsg (run fs net ts) = some "gradlew script missing") ∧
    (isOk (run fs net ts) = true →
      getPerm (resultFS (run fs net ts)) "gradlew" = some 493) := by
  constructor
  · rintro ⟨hA, hS, hB, hjar, hgw⟩
    have hfind : requiredItems.find? (fun x => !(pathExists fs x)) = none := by
      simp [requiredItems, List.find?, hA, hS, hB]
    have hjarA : pathExists (stageA fs ts) wrapperJarPath = true :=
      (pathExists_stageA_jar fs ts).trans hjar
    have hgwA : pathExists (stageA fs ts) "gradlew" = false :=
      (pathExists_stageA_gradlew fs ts).trans hgw
    unfold run
    rw [hfind]
    dsimp only
    rw [installJar_of_exists _ _ hjarA]
    dsimp only
    rw [if_neg (by simp [hgwA])]
    rfl
  · intro hok
    obtain ⟨g, hg⟩ := exists_ok_of_isOk hok
    obtain ⟨-, f7, -, -, rfl⟩ := run_ok_inv hg
    rw [hg]
    exact getPerm_chmod_self f7 "gradlew" 493

theorem C7_gradlew_exec_witness :
    (pathExists fsNoGradlew "gradlew" = false ∧
      errMsg (run fsNoGradlew netEmpty "20240101_000000") = some "gradlew script missing") ∧
    (isOk (run fsFull netJar "20240101_000000") = true ∧
      getPerm (resultFS (run fsFull netJar "20240101_000000")) "gradlew" = some 493) := by
  refine ⟨⟨by decide, ?_⟩, ⟨by decide, ?_⟩⟩
  · exact (C7_gradlew_exec fsNoGradlew netEmpty "20240101_000000").1
      ⟨by decide, by decide, by decide, by decide, by decide⟩
  · exact (C7_gradlew_exec fsFull netJar "20240101_000000").2 (by decide)

/-- C8: the parser strips leading and trailing whitespace from key and
value of every parsed line: any single line formed from a break-free
key part without separator and a break-free value part parses to the
stripped pair, ` foo = bar ` is stored as `("foo", "bar")`, and its
serialized line is `foo=bar`. -/
theorem C8_strip (kRaw vRaw : String)
    (hk1 : '=' ∉ kRaw.data)
    (hk2 : ∀ c ∈ kRaw.data, isBreak c = false)
    (hv2 : ∀ c ∈ vRaw.data, isBreak c = false) :
    parseProps (kRaw ++ "=" ++ vRaw) = [(pyStrip kRaw, pyStrip vRaw)] ∧
    parseProps " foo = bar " = [("foo", "bar")] ∧
    enforceProps " foo = bar "
      = "foo=bar\nandroid.useAndroidX=true\nandroid.enableJetifier=true\norg.gradle.jvmargs=-Xmx2048m\n" := by
  refine ⟨?_, by decide, by decide⟩
  have hbf : ∀ c ∈ (kRaw ++ "=" ++ vRaw).data, isBreak c = false := by
    intro c hc
    rw [serialized_line_data (kRaw, vRaw)] at hc
    rcases List.mem_append.1 hc with h | h
    · exact hk2 c h
    · rcases List.mem_cons.1 h with rfl | h'
      · decide
      · exact hv2 c h'
  have hne : (kRaw ++ "=" ++ vRaw).data ≠ [] := by
    rw [serialized_line_data (kRaw, vRaw)]
    simp
  have hkv : lineKV (kRaw ++ "=" ++ vRaw) = some (pyStrip kRaw, pyStrip vRaw) := by
    unfold lineKV
    rw [serialized_line_data (kRaw, vRaw), spl_app _ _ hk1]
  unfold parseProps
  rw [splitlines_single _ hbf hne]
  rw [List.foldl_cons, List.foldl_nil]
  unfold parseLine
  rw [hkv]
  simp [setAssoc]

theorem C8_strip_witness :
    ('=' ∉ (" foo " : String).data) ∧
    parseProps (" foo " ++ "=" ++ " bar ") = [(pyStrip " foo ", pyStrip " bar ")] :=
  ⟨by decide, (C8_strip " foo " " bar " (by decide) (by decide) (by decide)).1⟩

/-- C9 as stated is false for the mandatory keys: in the input below
the key `android.useAndroidX` occurs on two separator-containing lines
with last value `false`, but the output binds it to the forced value
`true`, not to the value of its last occurrence. -/
theorem C9_counterexample :
    ((rawPairs "android.useAndroidX=false\nandroid.useAndroidX=false").map Prod.fst
      = ["android.useAndroidX", "android.useAndroidX"]) ∧
    lastVal (rawPairs "android.useAndroidX=false\nandroid.useAndroidX=false")
      "android.useAndroidX" = some "false" ∧
    ¬ (getVal
        (enforceList (parseProps "android.useAndroidX=false\nandroid.useAndroidX=false"))
        "android.useAndroidX"
      = lastVal (rawPairs "android.useAndroidX=false\nandroid.useAndroidX=false")
        "android.useAndroidX") :=
  ⟨by decide, by decide, by decide⟩

/-- C9 (amended): for any properties input, the output table has each
key exactly once at the position of its first occurrence; a key that is
not one of the three mandatory keys is bound to the value of its last
occurrence, while the mandatory keys are bound to their fixed forced
values. -/
theorem C9_duplicate_keys (s : String) :
    ((enforceList (parseProps s)).map Prod.fst).Nodup ∧
    (parseProps s).map Prod.fst = firstSeen ((rawPairs s).map Prod.fst) ∧
    (∀ k, getVal (parseProps s) k = lastVal (rawPairs s) k) ∧
    (∀ k, k ∉ mandatoryKeys →
      getVal (enforceList (parseProps s)) k = lastVal (rawPairs s) k) ∧
    getVal (enforceList (parseProps s)) "android.useAndroidX" = some "true" ∧
    getVal (enforceList (parseProps s)) "android.enableJetifier" = some "true" ∧
    getVal (enforceList (parseProps s)) "org.gradle.jvmargs" = some "-Xmx2048m" := by
  have hlast : ∀ k, getVal (parseProps s) k = lastVal (rawPairs s) k := by
    intro k
    rw [parse_eq_setFold, getVal_setFold]
    rfl
  refine ⟨enforce_nodup (parse_nodup s), ?_, hlast,
    fun k hk => (getVal_enforce_other _ k hk).trans (hlast k),
    getVal_enforce_useAndroidX _, getVal_enforce_enableJetifier _, getVal_enforce_jvmargs _⟩
  rw [parse_eq_setFold, mapFst_setFold]
  rfl

/-- C10: when the archive holds more than one entry ending in
gradle-wrapper.jar, a successful run installs the content of the first
such entry in name-list order as the wrapper jar, ignoring the rest. -/
theorem C10_first_match (fs : FS) (net : Net) (ts : String) (j j2 : String)
    (rest : List String)
    (hfil : net.namelist.filter (fun n => pyEndsWith n "gradle-wrapper.jar")
      = j :: j2 :: rest)
    (hjar : pathExists fs wrapperJarPath = false)
    (hok : isOk (run fs net ts) = true) :
    getFile (resultFS (run fs net ts)) wrapperJarPath
      = some ((getVal net.entries j).getD "") := by
  obtain ⟨g, hg⟩ := exists_ok_of_isOk hok
  obtain ⟨-, f7, hij, -, rfl⟩ := run_ok_inv hg
  have hjarA : pathExists (stageA fs ts) wrapperJarPath = false :=
    (pathExists_stageA_jar fs ts).trans hjar
  have hshape := installJar_extract_shape (stageA fs ts) net hjarA hfil
  rw [hshape] at hij
  have hf7 : extractJar (downloadZip (stageA fs ts) net) net j = f7 := RunResult.ok.inj hij
  rw [hg]
  show getFile (chmodFile f7 "gradlew" 493) wrapperJarPath = some ((getVal net.entries j).getD "")
  rw [getFile_chmod, ← hf7, getFile_extractJar_jar]

theorem C10_first_match_witness :
    (netTwo.namelist.filter (fun n => pyEndsWith n "gradle-wrapper.jar")
      = "a/gradle-wrapper.jar" :: "b/gradle-wrapper.jar" :: []) ∧
    isOk (run fsFull netTwo "20240101_000000") = true ∧
    getFile (resultFS (run fsFull netTwo "20240101_000000")) wrapperJarPath
      = some ((getVal netTwo.entries "a/gradle-wrapper.jar").getD "") :=
  ⟨by decide, by decide,
    C10_first_match fsFull netTwo "20240101_000000" "a/gradle-wrapper.jar"
      "b/gradle-wrapper.jar" [] (by decide) (by decide) (by decide)⟩

end Prepush
